import Mathlib

/-!
Task decision functions of the Redfish update and log services.

A shallow embedding of the three task callbacks found in
`redfish-core/lib/update_service.hpp` (`handleCreateTask`) and
`redfish-core/lib/log_services.hpp` (the dump-creation callback of
`createDumpTaskCallback` and the crashdump callback of
`requestRoutesCrashdumpCollect`), together with the properties they satisfy.

Conventions of the embedding:

* A callback mutates `taskData` in place and returns a `bool`; here it is a
  pure function returning the verdict together with the new task record.
* `msg.read(iface, values)` of a `PropertiesChanged` signal is the pair
  `(iface, values)` carried by `message_t`.
* `std::string::ends_with` compares code units; on well-formed UTF-8 that is
  the same as comparing the character sequences, which is what `ends_with`
  does.
-/

namespace redfish

/-! ## Bus values -/

/-- The alternatives of the bus variant type that the callbacks distinguish:
strings, bytes, and a few of the remaining scalar alternatives. -/
inductive DbusVariantType where
  | str (s : String)
  | byte (b : Fin 256)
  | boolean (b : Bool)
  | int64 (n : Int)
  | uint64 (n : Nat)
  | strings (l : List String)
deriving DecidableEq, Repr

/-- The C++ `std::get_if<std::string>`: the string held by the variant, if any. -/
def getIfString : DbusVariantType → Option String
  | .str s => some s
  | _ => none

/-- The C++ `std::get_if<uint8_t>`: the byte held by the variant, if any. -/
def getIfByte : DbusVariantType → Option (Fin 256)
  | .byte b => some b
  | _ => none

/-- The list of (property name, value) pairs of a `PropertiesChanged` signal. -/
abbrev DBusPropertiesMap := List (String × DbusVariantType)

/-- A received `PropertiesChanged` signal, as `msg.read(iface, values)` yields it. -/
structure message_t where
  iface : String
  values : DBusPropertiesMap
deriving DecidableEq, Repr

/-- The value of a `boost::system::error_code`; it is set when non-zero. -/
structure error_code where
  value : Int
deriving DecidableEq, Repr

/-- The C++ `if (ec)` test. -/
def error_code.failed (ec : error_code) : Bool := ec.value != 0

/-- The C++ `std::string::ends_with`. -/
def ends_with (s sv : String) : Bool := decide (sv.data <:+ s.data)

/-! ## Messages and the task record -/

/-- The registry messages the callbacks append, by constructor and arguments. -/
inductive Message where
  | internalError
  | success
  | taskAborted (arg1 : String)
  | taskPaused (arg1 : String)
  | taskCompletedOK (arg1 : String)
  | taskProgressChanged (arg1 : String) (arg2 : Nat)
deriving DecidableEq, Repr

/-- The captured request of a task; the callbacks touch only its headers. -/
structure Payload where
  httpHeaders : List String
deriving DecidableEq, Repr

/-- The fields of `task::TaskData` that the callbacks read or write. `timer`
holds the duration in seconds for which the single task timer was last armed. -/
structure TaskData where
  index : Nat
  state : String
  status : String
  messages : List Message
  percentComplete : Int
  payload : Option Payload
  timer : Option Nat
deriving DecidableEq, Repr

namespace task

/-- Modelled from the spec: the constant `task::completed` of `task.hpp`, the
verdict `finished`; the verdict `pending` is its negation `!task::completed`. -/
def completed : Bool := true

end task

/-- Modelled from the spec: `TaskData::extendTimer` of `task.hpp`, which
replaces the outstanding timer of the task by one armed for `seconds`. -/
def TaskData.extendTimer (taskData : TaskData) (seconds : Nat) : TaskData :=
  { taskData with timer := some seconds }

/-- The C++ `std::chrono::hours(n)` in seconds. -/
def hours (n : Nat) : Nat := n * 3600

/-- The C++ `std::chrono::minutes(n)` in seconds. -/
def minutes (n : Nat) : Nat := n * 60

/-! ## Firmware update: `handleCreateTask` -/

/-- The property loop of `handleCreateTask`: walks all of `values`; every entry
named `key` overwrites the pointer with `get_if` of its value, and a value of
the wrong alternative leaves the function at once (`none`). The result
`some ptr` is the pointer after the loop ran to its end. -/
def scanProperty {α : Type} (key : String) (get_if : DbusVariantType → Option α) :
    DBusPropertiesMap → Option α → Option (Option α)
  | [], ptr => some ptr
  | property :: rest, ptr =>
    if property.1 = key then
      match get_if property.2 with
      | none => none
      | some v => scanProperty key get_if rest (some v)
    else scanProperty key get_if rest ptr

/-- The task callback of firmware updates (`update_service.hpp`). -/
def handleCreateTask (ec2 : error_code) (msg : message_t) (taskData : TaskData) :
    Bool × TaskData :=
  if ec2.failed then
    (task.completed, taskData)
  else
    let index := toString taskData.index
    if msg.iface = "xyz.openbmc_project.Software.Activation" then
      match scanProperty "Activation" getIfString msg.values none with
      | none =>
        (task.completed,
          { taskData with messages := taskData.messages ++ [Message.internalError] })
      | some none => (!task.completed, taskData)
      | some (some state) =>
        if ends_with state "Invalid" || ends_with state "Failed" then
          (task.completed,
            { taskData with
                state := "Exception"
                status := "Warning"
                messages := taskData.messages ++ [Message.taskAborted index] })
        else if ends_with state "Staged" then
          (!task.completed,
            ({ taskData with
                state := "Stopping"
                messages := taskData.messages ++ [Message.taskPaused index] }).extendTimer
              (hours 5))
        else if ends_with state "Active" then
          (task.completed,
            { taskData with
                messages := taskData.messages ++ [Message.taskCompletedOK index]
                state := "Completed" })
        else (!task.completed, taskData)
    else if msg.iface = "xyz.openbmc_project.Software.ActivationProgress" then
      match scanProperty "Progress" getIfByte msg.values none with
      | none =>
        (task.completed,
          { taskData with messages := taskData.messages ++ [Message.internalError] })
      | some none => (!task.completed, taskData)
      | some (some progress) =>
        (!task.completed,
          ({ taskData with
              percentComplete := (progress.val : Int)
              messages :=
                taskData.messages ++ [Message.taskProgressChanged index progress.val] }).extendTimer
            (minutes 5))
    else (!task.completed, taskData)

/-! ## Dump creation: the callback of `createDumpTaskCallback` -/

/-- The enum `DumpCreationProgress` of `log_services.hpp`. -/
inductive DumpCreationProgress where
  | DUMP_CREATE_SUCCESS
  | DUMP_CREATE_FAILED
  | DUMP_CREATE_INPROGRESS
deriving DecidableEq, Repr

open DumpCreationProgress in
/-- Maps the bus `Status` string to the dump progress. -/
def mapDbusStatusToDumpProgress (status : String) : DumpCreationProgress :=
  if status = "xyz.openbmc_project.Common.Progress.OperationStatus.Failed" ||
      status = "xyz.openbmc_project.Common.Progress.OperationStatus.Aborted" then
    DUMP_CREATE_FAILED
  else if status = "xyz.openbmc_project.Common.Progress.OperationStatus.Completed" then
    DUMP_CREATE_SUCCESS
  else DUMP_CREATE_INPROGRESS

open DumpCreationProgress in
/-- Decides on the first `Status` entry of the changed properties. -/
def getDumpCompletionStatus : DBusPropertiesMap → DumpCreationProgress
  | [] => DUMP_CREATE_INPROGRESS
  | (key, val) :: rest =>
    if key = "Status" then
      match getIfString val with
      | none => DUMP_CREATE_FAILED
      | some value => mapDbusStatusToDumpProgress value
    else getDumpCompletionStatus rest

/-- What the dump callback captures from `createDumpTaskCallback`. -/
structure DumpCapture where
  createdObjPath : String
  dumpEntryPath : String
  dumpId : String
  isProgressIntfPresent : Bool
deriving DecidableEq, Repr

/-- The `Location` header the dump callback composes. The manager name is the
build constant `BMCWEB_REDFISH_MANAGER_URI_NAME` and `encode` is the escaping
that `boost::urls::format` applies to a substituted argument; both are
parameters here. -/
def dumpLocationHeader (managerName : String) (encode : String → String)
    (dumpId : String) : String :=
  "Location: " ++
    ("/redfish/v1/Managers/" ++ encode managerName ++ "/LogServices/Dump/Entries/" ++
      encode dumpId)

/-- The tail of the dump callback, reached when the dump is complete: appends
the success message and the `Location` header and sets `Completed`. The result
is `none` when `taskData->payload` is empty, where the C++ dereference is
undefined. -/
def dumpTaskCompleted (managerName : String) (encode : String → String)
    (cap : DumpCapture) (taskData : TaskData) : Option (Bool × TaskData) :=
  match taskData.payload with
  | none => none
  | some payload =>
    some (task.completed,
      { taskData with
          messages := taskData.messages ++ [Message.success]
          payload := some
            { payload with
                httpHeaders :=
                  payload.httpHeaders ++ [dumpLocationHeader managerName encode cap.dumpId] }
          state := "Completed" })

open DumpCreationProgress in
/-- The task callback of dump creation (`log_services.hpp`). -/
def createDumpTaskCallback (managerName : String) (encode : String → String)
    (cap : DumpCapture) (ec2 : error_code) (msg : message_t) (taskData : TaskData) :
    Option (Bool × TaskData) :=
  if ec2.failed then
    some (task.completed,
      { taskData with
          messages := taskData.messages ++ [Message.internalError]
          state := "Cancelled" })
  else if cap.isProgressIntfPresent then
    let dumpStatus := getDumpCompletionStatus msg.values
    if dumpStatus = DUMP_CREATE_FAILED then
      some (task.completed, { taskData with state := "Cancelled" })
    else if dumpStatus = DUMP_CREATE_INPROGRESS then
      some (!task.completed, taskData)
    else dumpTaskCompleted managerName encode cap taskData
  else dumpTaskCompleted managerName encode cap taskData

/-! ## Crashdump collection: the callback of `requestRoutesCrashdumpCollect` -/

/-- The task callback of crashdump collection (`log_services.hpp`); it does not
look at the signal. -/
def collectCrashdumpTaskCallback (ec2 : error_code) (_msg : message_t)
    (taskData : TaskData) : Bool × TaskData :=
  if !ec2.failed then
    (task.completed,
      { taskData with
          messages := taskData.messages ++ [Message.taskCompletedOK (toString taskData.index)]
          state := "Completed" })
  else (task.completed, taskData)

/-! ## Vocabulary of the statements -/

/-- The entries of `values` named `key`, in order. -/
def entriesNamed (key : String) (values : DBusPropertiesMap) : DBusPropertiesMap :=
  values.filter (fun property => decide (property.1 = key))

/-- The payload has exactly one entry named `key`, and its value is `v`. -/
def carries (values : DBusPropertiesMap) (key : String) (v : DbusVariantType) : Prop :=
  entriesNamed key values = [(key, v)]

/-- The payload has no entry named `key`. -/
def lacks (values : DBusPropertiesMap) (key : String) : Prop :=
  entriesNamed key values = []

instance (values : DBusPropertiesMap) (key : String) (v : DbusVariantType) :
    Decidable (carries values key v) := by
  unfold carries; infer_instance

instance (values : DBusPropertiesMap) (key : String) : Decidable (lacks values key) := by
  unfold lacks; infer_instance

/-- A signal of the ActivationProgress interface whose `Progress` is the byte `p`. -/
def isProgressSignal (msg : message_t) (p : Fin 256) : Prop :=
  msg.iface = "xyz.openbmc_project.Software.ActivationProgress" ∧
    carries msg.values "Progress" (.byte p)

/-- A signal of the Activation interface whose `Activation` is the string `s`. -/
def isActivationSignal (msg : message_t) (s : String) : Prop :=
  msg.iface = "xyz.openbmc_project.Software.Activation" ∧
    carries msg.values "Activation" (.str s)

/-- Hands the signals to a task callback one after another, each without
error, and collects the verdicts and the final task record. -/
def deliverAll (callback : error_code → message_t → TaskData → Bool × TaskData) :
    List message_t → TaskData → List Bool × TaskData
  | [], taskData => ([], taskData)
  | msg :: rest, taskData =>
    let r := callback ⟨0⟩ msg taskData
    let rs := deliverAll callback rest r.2
    (r.1 :: rs.1, rs.2)

/-- The transitions the task state machine permits. -/
def permitted (old new : String) : Prop :=
  (old = "Running" ∧ new ∈ ["Stopping", "Completed", "Exception", "Cancelled"]) ∨
    (old = "Stopping" ∧ new ∈ ["Completed", "Exception", "Cancelled"])

instance (old new : String) : Decidable (permitted old new) := by
  unfold permitted; infer_instance

/-! ## Concrete inputs -/

/-- A task as it is right after creation: running, no messages yet, the
captured request attached and the timer armed for five minutes. -/
def startedTask : TaskData :=
  { index := 7, state := "Running", status := "OK", messages := [], percentComplete := 0,
    payload := some ⟨[]⟩, timer := some 300 }

/-- The signal that reports the progress byte `p` and nothing else. -/
def progressSignal (p : Fin 256) : message_t :=
  ⟨"xyz.openbmc_project.Software.ActivationProgress", [("Progress", .byte p)]⟩

/-- The signal that reports the activation string `s` and nothing else. -/
def activationSignal (s : String) : message_t :=
  ⟨"xyz.openbmc_project.Software.Activation", [("Activation", .str s)]⟩

/-- The signal of a dump object that reports the status string `s`. -/
def statusSignal (s : String) : message_t :=
  ⟨"xyz.openbmc_project.Common.Progress", [("Status", .str s)]⟩

/-- The capture of a dump task whose object implements the Progress interface. -/
def trackedDump : DumpCapture :=
  { createdObjPath := "/xyz/openbmc_project/dump/bmc/entry/3",
    dumpEntryPath := "/redfish/v1/Managers/bmc/LogServices/Dump/Entries/",
    dumpId := "3", isProgressIntfPresent := true }

/-- The signal a timer expiry hands to a callback along with its error code:
an empty message that is never read. -/
def emptySignal : message_t := ⟨"", []⟩

/-- An Activation signal in which only `RequestedActivation` changed. -/
def requestedActivationSignal : message_t :=
  ⟨"xyz.openbmc_project.Software.Activation",
    [("RequestedActivation",
      .str "xyz.openbmc_project.Software.Activation.RequestedActivations.Active")]⟩

/-! ## HTTP responses and requests -/

/-- The registry messages the handlers add to an HTTP response, by constructor
and arguments. -/
inductive ResponseMessage where
  | internalError
  | success
  | serviceTemporarilyUnavailable (arg1 : String)
  | actionParameterNotSupported (arg1 arg2 : String)
  | actionParameterValueTypeError (arg1 arg2 arg3 : String)
  | resourceNotFound (arg1 arg2 : String)
  | actionParameterMissing (arg1 arg2 : String)
  | invalidUpload (arg1 arg2 : String)
  | resourceAlreadyExists (arg1 arg2 arg3 : String)
  | resourceExhaustion (arg1 : String)
deriving DecidableEq, Repr

/-- A value stored under a key of `res.jsonValue`. -/
inductive JsonValue where
  | int (n : Int)
  | str (s : String)
deriving DecidableEq, Repr

/-- The parts of `crow::Response` the handlers write: the messages added and
the keys assigned in `jsonValue`. -/
structure Response where
  messages : List ResponseMessage
  jsonValue : List (String × JsonValue)
deriving DecidableEq, Repr

/-- The effect of `messages::name(res, ...)`: one more message on the response. -/
def Response.addMessage (res : Response) (m : ResponseMessage) : Response :=
  { res with messages := res.messages ++ [m] }

/-- The assignment `res.jsonValue[key] = value`. -/
def Response.assign (res : Response) (key : String) (value : JsonValue) : Response :=
  { res with
      jsonValue := res.jsonValue.filter (fun kv => !decide (kv.1 = key)) ++ [(key, value)] }

/-- The lookup `res.jsonValue[key]`. -/
def Response.lookup (res : Response) (key : String) : Option JsonValue :=
  (res.jsonValue.find? (fun kv => decide (kv.1 = key))).map Prod.snd

/-- The parts of `crow::Request` that `monitorForSoftwareAvailable` reads:
whether `ioService` is non-null and the decoded query parameters of the URL. -/
structure Request where
  ioService : Bool
  params : List (String × String)
deriving DecidableEq, Repr

/-! ## `std::stoi` -/

/-- The exceptions of `std::stoi`. -/
inductive StoiError where
  | invalid_argument
  | out_of_range
deriving DecidableEq, Repr

/-- The C `isspace` in the "C" locale. -/
def isspace (c : Char) : Bool :=
  c = ' ' || c = '\t' || c = '\n' || c = '\r' || c.toNat = 11 || c.toNat = 12

/-- The number a list of decimal digit characters denotes. -/
def digitsValue (ds : List Char) : Nat :=
  ds.foldl (fun acc c => acc * 10 + (c.toNat - '0'.toNat)) 0

/-- The C++ `std::stoi(str)` in base 10: leading white space is skipped, a sign
is optional, the longest run of digits is converted and what follows it is
ignored. Without a digit it throws `invalid_argument`, outside the range of
`int` it throws `out_of_range`. -/
def stoi (str : String) : Except StoiError Int :=
  let s := str.data.dropWhile isspace
  let negative := s.head? = some '-'
  let s := if s.head? = some '-' ∨ s.head? = some '+' then s.tail else s
  let ds := s.takeWhile Char.isDigit
  if ds = [] then .error .invalid_argument
  else
    let v : Int := if negative then -(digitsValue ds : Int) else (digitsValue ds : Int)
    if v < -2147483648 ∨ 2147483647 < v then .error .out_of_range else .ok v

/-! ## Firmware update: the admission guard -/

/-- What a bus match installed by `monitorForSoftwareAvailable` calls. -/
inductive MatchCallback where
  | softwareInterfaceAdded (hostNumber : Nat)
  | afterUpdateErrorMatcher (url : String)
deriving DecidableEq, Repr

/-- A bus match `sdbusplus::bus::match_t`: its rule and its callback. -/
structure match_t where
  rule : String
  callback : MatchCallback
deriving DecidableEq, Repr

/-- The global variables of `update_service.hpp`; a null pointer is `none`,
and the timer holds the number of seconds it was armed for. -/
structure UpdateGlobals where
  fwUpdateMatcher : Option match_t
  fwUpdateErrorMatcher : Option match_t
  fwUpdateInProgress : Bool
  fwAvailableTimer : Option Int
deriving DecidableEq, Repr

/-- The function `cleanUp` of `update_service.hpp`. -/
def cleanUp (g : UpdateGlobals) : UpdateGlobals :=
  { g with fwUpdateInProgress := false, fwUpdateMatcher := none, fwUpdateErrorMatcher := none }

/-- The parameter loop of `monitorForSoftwareAvailable`: the first parameter
named `HostNumber` with a non-empty value decides; `hostNumber` is the value
the variable holds before the loop. -/
def hostNumberFromParams : List (String × String) → Nat → Nat
  | [], hostNumber => hostNumber
  | param :: rest, hostNumber =>
    if param.1 = "HostNumber" ∧ param.2 ≠ "" then
      match stoi param.2 with
      | .ok temp => (temp % 65536).toNat
      | .error _ => 0
    else hostNumberFromParams rest hostNumber

/-- The function `monitorForSoftwareAvailable` of `update_service.hpp`, on the
globals `g`. `timeoutTimeSeconds` is 25 when the caller leaves it out.
`indeterminate` is the value the uninitialised local `hostNumber` happens to
hold. The result is `none` when a null `asyncResp` would be dereferenced. -/
def monitorForSoftwareAvailable (asyncResp : Option Response) (req : Request)
    (url : String) (timeoutTimeSeconds : Int) (indeterminate : Nat) (g : UpdateGlobals) :
    Option (Option Response × UpdateGlobals) :=
  if g.fwUpdateInProgress then
    some (asyncResp.map (fun res => res.addMessage (.serviceTemporarilyUnavailable "30")), g)
  else if !req.ioService then
    match asyncResp with
    | none => none
    | some res => some (some (res.addMessage .internalError), g)
  else
    let hostNumber := hostNumberFromParams req.params (indeterminate % 65536)
    let installed : UpdateGlobals :=
      { fwAvailableTimer := some timeoutTimeSeconds
        fwUpdateInProgress := true
        fwUpdateMatcher := some
          ⟨"interface='org.freedesktop.DBus.ObjectManager',type='signal'," ++
              "member='InterfacesAdded',path='/xyz/openbmc_project/software'",
            .softwareInterfaceAdded hostNumber⟩
        fwUpdateErrorMatcher := some
          ⟨"interface='org.freedesktop.DBus.ObjectManager',type='signal'," ++
              "member='InterfacesAdded'," ++ "path='/xyz/openbmc_project/logging'",
            .afterUpdateErrorMatcher url⟩ }
    if hostNumber > 2 then
      match asyncResp with
      | none => none
      | some res =>
        some (some (res.addMessage
          (.actionParameterNotSupported (toString hostNumber) "HostNumber")), installed)
    else some (asyncResp, installed)

/-- Modelled from the spec: the task record that `createTask` of
`update_service.hpp` obtains from `task::TaskData::createTask` of `task.hpp`,
a task in state "Running" without messages; `createTask` arms its timer for
five minutes and attaches the payload. `index` is the identity the registry
allots. -/
def createTask (index : Nat) (payload : Payload) : TaskData :=
  { index := index, state := "Running", status := "OK", messages := [],
    percentComplete := 0, payload := some payload, timer := some (minutes 5) }

/-- What the update service has done so far: its globals, the response of the
request, the `activateImage` calls (object path, service, host number) and
the tasks created. -/
structure UpdateWorld where
  globals : UpdateGlobals
  asyncResp : Option Response
  activated : List (String × String × Nat)
  tasks : List TaskData
deriving DecidableEq, Repr

/-- The loop of `softwareInterfaceAdded`: the object lookup is issued when the
added object lists the Activation interface. -/
def softwareInterfaceAdded (interfacesProperties : List (String × DBusPropertiesMap)) :
    Bool :=
  interfacesProperties.any (fun interface => decide
    (interface.1 = "xyz.openbmc_project.Software.Activation"))

/-- The callback that `softwareInterfaceAdded` hands to `getDbusObject`. -/
def softwareInterfaceAddedLookup (objPath : String) (hostNumber : Nat) (payload : Payload)
    (nextIndex : Nat) (ec : error_code) (objInfo : List (String × List String))
    (w : UpdateWorld) : UpdateWorld :=
  if ec.failed then
    { w with
        asyncResp := w.asyncResp.map (fun res => res.addMessage .internalError)
        globals := cleanUp w.globals }
  else
    match objInfo with
    | [info] =>
      { w with
          activated := w.activated ++ [(objPath, info.1, hostNumber)]
          tasks :=
            if w.asyncResp.isSome then w.tasks ++ [createTask nextIndex payload] else w.tasks
          globals := { w.globals with fwAvailableTimer := none, fwUpdateInProgress := false } }
    | _ =>
      { w with
          asyncResp := w.asyncResp.map (fun res => res.addMessage .internalError)
          globals := cleanUp w.globals }

/-- The engine hands a signal to the callback of the `i`-th task created;
`handleCreateTask` is given the task record only. The result is `none` when
there is no such task. -/
def UpdateWorld.signal (w : UpdateWorld) (i : Nat) (ec2 : error_code) (msg : message_t) :
    Option (Bool × UpdateWorld) :=
  match w.tasks.get? i with
  | none => none
  | some taskData =>
    some ((handleCreateTask ec2 msg taskData).1,
      { w with tasks := w.tasks.set i (handleCreateTask ec2 msg taskData).2 })

/-! ## The task registry -/

/-- Modelled from the spec: what the engine of `task.hpp` delivers to the
decision function of a task, a notification payload or a synthetic timeout. -/
inductive TaskEvent where
  | notification (msg : message_t)
  | timeout
deriving DecidableEq, Repr

/-- Modelled from the spec: a task as the registry of `task.hpp` holds it, the
record, whether the task is retired (subscription and timer released, no
longer reachable from the registry), and the verdicts of the calls of its
decision function so far, oldest first. -/
structure RegisteredTask where
  taskData : TaskData
  retired : Bool
  verdicts : List Bool
deriving DecidableEq, Repr

/-- Modelled from the spec: delivery of one event by the engine of `task.hpp`.
A retired task gets nothing; otherwise the decision function is called, with
the error code set for a timeout (`operation_aborted`, 125), and on `finished`
the task is retired. -/
def dispatch (callback : error_code → message_t → TaskData → Bool × TaskData)
    (event : TaskEvent) (t : RegisteredTask) : RegisteredTask :=
  if t.retired then t
  else
    let r :=
      match event with
      | .notification msg => callback ⟨0⟩ msg t.taskData
      | .timeout => callback ⟨125⟩ ⟨"", []⟩ t.taskData
    { taskData := r.2, retired := r.1 == task.completed, verdicts := t.verdicts ++ [r.1] }

/-- Modelled from the spec: delivery of a sequence of events, in order. -/
def dispatchAll (callback : error_code → message_t → TaskData → Bool × TaskData) :
    List TaskEvent → RegisteredTask → RegisteredTask
  | [], t => t
  | event :: rest, t => dispatchAll callback rest (dispatch callback event t)

/-- Modelled from the spec: a task right after `createTask` of
`update_service.hpp` registered it. -/
def registered (taskData : TaskData) : RegisteredTask :=
  { taskData := taskData, retired := false, verdicts := [] }

/-! ## More concrete inputs -/

/-- The globals before any update was requested. -/
def idleGlobals : UpdateGlobals :=
  { fwUpdateMatcher := none, fwUpdateErrorMatcher := none, fwUpdateInProgress := false,
    fwAvailableTimer := none }

/-- The globals while an update is monitored for the action URL, with 25 seconds
to go and host number 0. -/
def monitoringGlobals : UpdateGlobals :=
  { fwUpdateMatcher := some
      ⟨"interface='org.freedesktop.DBus.ObjectManager',type='signal'," ++
          "member='InterfacesAdded',path='/xyz/openbmc_project/software'",
        .softwareInterfaceAdded 0⟩
    fwUpdateErrorMatcher := some
      ⟨"interface='org.freedesktop.DBus.ObjectManager',type='signal'," ++
          "member='InterfacesAdded'," ++ "path='/xyz/openbmc_project/logging'",
        .afterUpdateErrorMatcher "/redfish/v1/UpdateService"⟩
    fwUpdateInProgress := true
    fwAvailableTimer := some 25 }

/-- A response nothing was written to yet. -/
def emptyResponse : Response := { messages := [], jsonValue := [] }

/-- A request with an I/O service and without query parameters. -/
def plainRequest : Request := { ioService := true, params := [] }

/-! ## `std::from_chars` and the post code ID -/

/-- The error part of a `std::from_chars_result`. -/
inductive errc where
  | ok
  | invalid_argument
  | result_out_of_range
deriving DecidableEq, Repr

/-- A `std::from_chars_result`: `ptr` is what follows the characters consumed. -/
structure from_chars_result where
  ptr : List Char
  ec : errc
deriving DecidableEq, Repr

/-- The C++ `std::from_chars(first, last, value)` for an unsigned integer of
`bits` bits in base 10: the longest run of digits is converted; no sign and no
white space is accepted. The second component is `value` after the call,
which is written only on success. -/
def from_chars (bits : Nat) (first : List Char) (value : Nat) : from_chars_result × Nat :=
  if first.takeWhile Char.isDigit = [] then (⟨first, .invalid_argument⟩, value)
  else if digitsValue (first.takeWhile Char.isDigit) < 2 ^ bits then
    (⟨first.dropWhile Char.isDigit, .ok⟩, digitsValue (first.takeWhile Char.isDigit))
  else (⟨first.dropWhile Char.isDigit, .result_out_of_range⟩, value)

/-- The pieces of `str` between the occurrences of `delim`, empty pieces
included; `piece` is the piece being read. -/
def splitAux (delim : Char) : List Char → List Char → List (List Char)
  | [], piece => [piece.reverse]
  | c :: rest, piece =>
    if c = delim then piece.reverse :: splitAux delim rest []
    else splitAux delim rest (c :: piece)

/-- The split of `str` at every occurrence of `delim`, standing in for the
helper `bmcweb::split` in examples. -/
def plainSplit (str : String) (delim : Char) : List String :=
  (splitAux delim str.data []).map String.mk

/-- The function `parsePostCode` of `log_services.hpp`. The helper
`bmcweb::split` of `str_utility.hpp` is not among the sources and is the
parameter `split`. The arguments `currentValue` and `index` are the values of
the output parameters before the call; the result is the return value and the
two output parameters after it. -/
def parsePostCode (split : String → Char → List String) (postCodeID : String)
    (currentValue index : Nat) : Bool × Nat × Nat :=
  match split postCodeID '-' with
  | [first, second] =>
    if first.utf8ByteSize < 2 then (false, currentValue, index)
    else if first.data.head? ≠ some 'B' then (false, currentValue, index)
    else
      let rIndex := from_chars 16 first.data.tail index
      if rIndex.1.ptr ≠ [] ∨ rIndex.1.ec ≠ .ok then (false, currentValue, rIndex.2)
      else
        let rValue := from_chars 64 second.data currentValue
        (decide (rValue.1.ptr = [] ∧ rValue.1.ec = .ok), rValue.2, rIndex.2)
  | _ => (false, currentValue, index)

/-! ## `getHostNumber` -/

/-- The function `getHostNumber` of `multihost_utils.hpp`. `hostNumberStr` is
what `readJsonAction` read for the key `HostNumber`, `none` when it returned
false; `res` is the response as `readJsonAction` left it. The result is the
response and `hostNumberOpt` after the call. -/
def getHostNumber (hostNumberStr : Option String) (res : Response)
    (hostNumberOpt : Option String) : Response × Option String :=
  match hostNumberStr with
  | none => (res.assign "HostNumber" (.int 0), some "0")
  | some str =>
    match stoi str with
    | .ok hostNumber =>
      if hostNumber = 0 ∨ hostNumber = 1 ∨ hostNumber = 2 then
        (res.assign "HostNumber" (.int hostNumber), some str)
      else (res.assign "error" (.str "Invalid HostNumber. Must be 0, 1, or 2."), hostNumberOpt)
    | .error .invalid_argument =>
      (res.assign "error" (.str "Invalid HostNumber format."), hostNumberOpt)
    | .error .out_of_range =>
      (res.assign "error" (.str "HostNumber out of range."), hostNumberOpt)

/-! ## Dump creation: the interface scan -/

/-- The interface scan of `createDumpTaskCallback`. The list holds, for every
`interface` child of the root node in document order, its `name` attribute,
`none` when it has none. The result is `isProgressIntfPresent` after the loop. -/
def isProgressIntfPresent : List (Option String) → Bool
  | [] => false
  | none :: rest => isProgressIntfPresent rest
  | some thisInterfaceName :: rest =>
    if thisInterfaceName = "xyz.openbmc_project.Common.Progress" then
      isProgressIntfPresent rest
    else true

/-! ## `parseSimpleUpdateUrl` -/

/-- A `boost::urls::url`, by its components. -/
structure url where
  scheme : String
  encoded_host_and_port : Option String
  encoded_path : String
  encoded_query : Option String
deriving DecidableEq, Repr

/-- The C++ `url::buffer()`: the URL as one string. -/
def url.buffer (u : url) : String :=
  u.scheme ++ ":" ++
    (match u.encoded_host_and_port with
      | some authority => "//" ++ authority
      | none => "") ++
    u.encoded_path ++
    (match u.encoded_query with
      | some query => "?" ++ query
      | none => "")

/-- The C++ `url::set_encoded_path`. -/
def url.set_encoded_path (u : url) (path : String) : url :=
  { u with encoded_path := path }

/-- The two functions of the URL library that `parseSimpleUpdateUrl` calls;
the library is not part of the repository. -/
structure UrlLibrary where
  parse_absolute_uri : String → Option url
  normalize : url → url

/-- The C++ `str.find(sub) != npos`: `sub` occurs in `str`. -/
def contains (str sub : String) : Bool := decide (sub.data <:+: str.data)

/-- The C++ `std::string::starts_with`. -/
def starts_with (str sv : String) : Bool := decide (sv.data <+: str.data)

/-- The second half of `parseSimpleUpdateUrl`, from the call of
`parse_absolute_uri` on; `imageURI` is the string after the scheme was
prepended, if it was. -/
def parseSimpleUpdateUrlTail (lib : UrlLibrary) (imageURI : String) (res : Response) :
    Option url × Response :=
  match lib.parse_absolute_uri imageURI with
  | none =>
    (none,
      res.addMessage
        (.actionParameterValueTypeError imageURI "ImageURI" "UpdateService.SimpleUpdate"))
  | some parsed =>
    let u := lib.normalize parsed
    if u.scheme = "tftp" then
      if u.encoded_path.utf8ByteSize < 2 then
        (none, res.addMessage (.actionParameterNotSupported "ImageURI" u.buffer))
      else if u.encoded_path = "" then
        (none,
          res.addMessage
            (.actionParameterValueTypeError imageURI "ImageURI" "UpdateService.SimpleUpdate"))
      else (some u, res)
    else if u.scheme = "https" then
      let u2 := if u.encoded_path = "" then u.set_encoded_path "/" else u
      if u2.encoded_path = "" then
        (none,
          res.addMessage
            (.actionParameterValueTypeError imageURI "ImageURI" "UpdateService.SimpleUpdate"))
      else (some u2, res)
    else (none, res.addMessage (.actionParameterNotSupported "ImageURI" imageURI))

/-- The function `parseSimpleUpdateUrl` of `update_service.hpp`: the URL
returned, `none` for `std::nullopt`, and the response after the call. -/
def parseSimpleUpdateUrl (lib : UrlLibrary) (imageURI : String)
    (transferProtocol : Option String) (res : Response) : Option url × Response :=
  if !contains imageURI "://" then
    if starts_with imageURI "/" then
      (none,
        res.addMessage
          (.actionParameterValueTypeError imageURI "ImageURI" "UpdateService.SimpleUpdate"))
    else
      match transferProtocol with
      | none =>
        (none,
          res.addMessage
            (.actionParameterValueTypeError imageURI "ImageURI" "UpdateService.SimpleUpdate"))
      | some protocol =>
        if protocol = "TFTP" then parseSimpleUpdateUrlTail lib ("tftp://" ++ imageURI) res
        else if protocol = "HTTPS" then
          parseSimpleUpdateUrlTail lib ("https://" ++ imageURI) res
        else (none, res.addMessage (.actionParameterNotSupported "TransferProtocol" protocol))
  else parseSimpleUpdateUrlTail lib imageURI res

/-- Splits a URI at its first "://" into what precedes and what follows it;
`scheme` is what was read so far. -/
def schemeSplit : List Char → List Char → Option (List Char × List Char)
  | [], _ => none
  | c :: rest, scheme =>
    if c = ':' ∧ rest.take 2 = ['/', '/'] then some (scheme.reverse, rest.drop 2)
    else schemeSplit rest (c :: scheme)

/-- A small reader of URIs of the form `scheme://authority/path`, standing in
for the URL library in examples. -/
def exampleLibrary : UrlLibrary where
  parse_absolute_uri s :=
    match schemeSplit s.data [] with
    | some (scheme, rest) =>
      if scheme = [] then none
      else
        some
          { scheme := String.mk scheme
            encoded_host_and_port := some (String.mk (rest.takeWhile (fun c => c ≠ '/')))
            encoded_path := String.mk (rest.dropWhile (fun c => c ≠ '/'))
            encoded_query := none }
    | none => none
  normalize u := { u with scheme := String.mk (u.scheme.data.map Char.toLower) }

/-! ## Journal entry IDs -/

/-- A 128-bit identifier `sd_id128_t`. -/
abbrev sd_id128_t := Fin (2 ^ 128)

/-- The two conversions of the journal library between an identifier and its
string; the library is not part of the repository. `sd_id128_from_string` is
`none` where the C function returns a negative value. -/
structure SdId128Library where
  sd_id128_to_string : sd_id128_t → String
  sd_id128_from_string : String → Option sd_id128_t

/-- The static locals of `getUniqueEntryID` for journal entries. The counter
`index` is an `int` that is only reset to 0 or incremented; it is taken as a
natural number, which it is short of an overflow. -/
structure UniqueEntryIDStatics where
  prevBootID : sd_id128_t
  prevTs : Nat
  index : Nat
deriving DecidableEq, Repr

/-- The function `getUniqueEntryID` of `log_services.hpp` for journal entries.
`entry` is what `sd_journal_get_monotonic_usec` reads, the time stamp and the
boot ID, `none` when it fails. The result is the return value, `entryID` after
the call and the static locals after the call. -/
def getUniqueEntryID (lib : SdId128Library) (entry : Option (Nat × sd_id128_t))
    (entryID : String) (firstEntry : Bool) (statics : UniqueEntryIDStatics) :
    Bool × String × UniqueEntryIDStatics :=
  let statics : UniqueEntryIDStatics :=
    if firstEntry then { statics with prevBootID := 0, prevTs := 0 } else statics
  match entry with
  | none => (false, entryID, statics)
  | some (curTs, curBootID) =>
    let sameBootIDs := decide (curBootID = statics.prevBootID)
    let index := if sameBootIDs ∧ curTs = statics.prevTs then statics.index + 1 else 0
    let prevBootID := if !sameBootIDs then curBootID else statics.prevBootID
    (true,
      lib.sd_id128_to_string curBootID ++ "_" ++ toString curTs ++
        (if index > 0 then "_" ++ toString index else ""),
      { prevBootID := prevBootID, prevTs := curTs, index := index })

/-- The output parameters of `getTimestampFromID`. -/
structure EntryKey where
  bootID : sd_id128_t
  timestamp : Nat
  index : Nat
deriving DecidableEq, Repr

/-- The function `getTimestampFromID` of `log_services.hpp`. `key` holds the
output parameters before the call; the result is the return value, the
response and the output parameters after the call. -/
def getTimestampFromID (lib : SdId128Library) (res : Response) (entryIDStrView : String)
    (key : EntryKey) : Bool × Response × EntryKey :=
  let bootIDStr := entryIDStrView.data.takeWhile (fun c => c ≠ '_')
  match entryIDStrView.data.dropWhile (fun c => c ≠ '_') with
  | [] => (false, res.addMessage (.resourceNotFound "LogEntry" entryIDStrView), key)
  | _ :: view1 =>
    match lib.sd_id128_from_string (String.mk bootIDStr) with
    | none => (false, res.addMessage (.resourceNotFound "LogEntry" entryIDStrView), key)
    | some bootID =>
      let rTimestamp := from_chars 64 view1 key.timestamp
      if rTimestamp.1.ec ≠ .ok then
        (false, res.addMessage (.resourceNotFound "LogEntry" (String.mk view1)),
          { key with bootID := bootID })
      else
        match rTimestamp.1.ptr with
        | [] => (true, res, { bootID := bootID, timestamp := rTimestamp.2, index := 0 })
        | c :: view2 =>
          if c ≠ '_' then
            (false, res.addMessage (.resourceNotFound "LogEntry" (String.mk (c :: view2))),
              { key with bootID := bootID, timestamp := rTimestamp.2 })
          else
            let rIndex := from_chars 64 view2 key.index
            if rIndex.1.ec ≠ .ok ∨ rIndex.1.ptr ≠ [] then
              (false, res.addMessage (.resourceNotFound "LogEntry" (String.mk view2)),
                { bootID := bootID, timestamp := rTimestamp.2, index := rIndex.2 })
            else (true, res, { bootID := bootID, timestamp := rTimestamp.2, index := rIndex.2 })

/-- The digit of a number below 16 in lower-case hexadecimal. -/
def hexDigit (n : Nat) : Char := Nat.digitChar (n % 16)

/-- The 32 hexadecimal digits of an identifier, most significant first;
`count` digits are still to be written in front of `digits`. -/
def hexDigits : Nat → Nat → List Char → List Char
  | 0, _, digits => digits
  | count + 1, n, digits => hexDigits count (n / 16) (hexDigit n :: digits)

/-- The value of a lower-case hexadecimal digit. -/
def hexValue (c : Char) : Option Nat :=
  if c.isDigit then some (c.toNat - '0'.toNat)
  else if 'a'.toNat ≤ c.toNat ∧ c.toNat ≤ 'f'.toNat then some (c.toNat - 'a'.toNat + 10)
  else none

/-- The value of a string of hexadecimal digits, `none` if one is not a digit. -/
def hexNumber : List Char → Nat → Option Nat
  | [], acc => some acc
  | c :: rest, acc =>
    match hexValue c with
    | none => none
    | some d => hexNumber rest (acc * 16 + d)

/-- A plain implementation of the two conversions, for examples: 32 lower-case
hexadecimal digits. -/
def exampleSdId128 : SdId128Library where
  sd_id128_to_string id := String.mk (hexDigits 32 id.val [])
  sd_id128_from_string s :=
    if s.data.length = 32 then
      match hexNumber s.data 0 with
      | some n => if h : n < 2 ^ 128 then some ⟨n, h⟩ else none
      | none => none
    else none

/-- The entry ID as the comment in `getUniqueEntryID` describes it:
`<bootID>_<timestamp>`, followed by `_<index>` when the index is positive. -/
def entryIDOf (lib : SdId128Library) (bootID : sd_id128_t) (timestamp index : Nat) : String :=
  lib.sd_id128_to_string bootID ++ "_" ++ toString timestamp ++
    (if index > 0 then "_" ++ toString index else "")

/-- The request was turned down with `ResourceNotFound` for a `LogEntry`: one
such message was added to the response. -/
def rejectedAsNotFound (res : Response) (r : Bool × Response × EntryKey) : Prop :=
  r.1 = false ∧ ∃ arg, r.2.1 = res.addMessage (.resourceNotFound "LogEntry" arg)

/-- The shape of a verdict history: all calls returned pending, except that
the last one returned finished exactly when the task is retired. -/
def finishedAtMostOnce (t : RegisteredTask) : Prop :=
  (t.retired = false ∧ ∀ v ∈ t.verdicts, v = !task.completed) ∨
    (t.retired = true ∧
      ∃ earlier, t.verdicts = earlier ++ [task.completed] ∧
        ∀ v ∈ earlier, v = !task.completed)

end redfish

/-! ## Virtual media: the websocket route `/vm/1/0` -/

namespace crow
namespace obmc_vm1

/-- The class `Handler`, as far as the route handlers are concerned: the media
it serves and whether `connect` got the proxy process started. -/
structure Handler where
  media : String
  proxyRunning : Bool
deriving DecidableEq, Repr

/-- The globals `session` and `handler` of `vm1_websocket.hpp`, and the close
requests issued on connections so far (connection, reason). A connection is
known by its address. -/
structure State where
  session : Option Nat
  handler : Option Handler
  closed : List (Nat × String)
deriving DecidableEq, Repr

/-- The `onopen` handler of the route. `spawned` tells whether
`Handler::connect` manages to start the proxy process. -/
def onopen (conn : Nat) (spawned : Bool) (st : State) : State :=
  if st.session ≠ none then
    { st with closed := st.closed ++ [(conn, "Session already connected")] }
  else if st.handler ≠ none then
    { st with closed := st.closed ++ [(conn, "Handler already running")] }
  else if spawned then
    { st with session := some conn, handler := some ⟨"8", true⟩ }
  else
    { session := some conn, handler := some ⟨"8", false⟩,
      closed := st.closed ++ [(conn, "Error connecting to nbd-proxy")] }

/-- The `onclose` handler of the route. The result is `none` when
`handler->doClose()` would be called on a null `handler`. -/
def onclose (conn : Nat) (st : State) : Option State :=
  if some conn ≠ st.session then some st
  else
    match st.handler with
    | none => none
    | some _ => some { st with session := none, handler := none }

/-- An event on the route: a connection opens or closes. -/
inductive Event where
  | opened (conn : Nat) (spawned : Bool)
  | closed (conn : Nat)
deriving DecidableEq, Repr

/-- The route handlers run on a sequence of events, in order. -/
def run : List Event → State → Option State
  | [], st => some st
  | .opened conn spawned :: rest, st => run rest (onopen conn spawned st)
  | .closed conn :: rest, st => (onclose conn st).bind (run rest)

/-- The state at start-up: no session, no handler. -/
def initial : State := { session := none, handler := none, closed := [] }

end obmc_vm1
end crow

namespace redfish

/-! ## Firmware update: error types of the image -/

/-- The chain of comparisons of `handleUpdateErrorType`: the messages it adds
for the error type, `none` for the last branch, which returns at once. -/
def updateErrorMessages (url type : String) : Option (List ResponseMessage) :=
  if type = "xyz.openbmc_project.Software.Image.Error.UnTarFailure" then
    some [.invalidUpload url "Invalid archive"]
  else if type = "xyz.openbmc_project.Software.Image.Error.ManifestFileFailure" then
    some [.invalidUpload url "Invalid manifest"]
  else if type = "xyz.openbmc_project.Software.Image.Error.ImageFailure" then
    some [.invalidUpload url "Invalid image format"]
  else if type = "xyz.openbmc_project.Software.Version.Error.AlreadyExists" then
    some [.invalidUpload url "Image version already exists",
      .resourceAlreadyExists "UpdateService" "Version" "uploaded version"]
  else if type = "xyz.openbmc_project.Software.Image.Error.BusyFailure" then
    some [.resourceExhaustion url]
  else if type = "xyz.openbmc_project.Software.Version.Error.Incompatible" then
    some [.invalidUpload url "Incompatible image version"]
  else if type = "xyz.openbmc_project.Software.Version.Error.ExpiredAccessKey" then
    some [.invalidUpload url "Update Access Key Expired"]
  else if type = "xyz.openbmc_project.Software.Version.Error.InvalidSignature" then
    some [.invalidUpload url "Invalid image signature"]
  else if type = "xyz.openbmc_project.Software.Image.Error.InternalFailure" ∨
      type = "xyz.openbmc_project.Software.Version.Error.HostFile" then
    some [.internalError]
  else none

/-- The function `handleUpdateErrorType` of `update_service.hpp`, on the
globals `g`. The result is `none` when a null `asyncResp` would be
dereferenced. -/
def handleUpdateErrorType (asyncResp : Option Response) (url type : String)
    (g : UpdateGlobals) : Option (Option Response × UpdateGlobals) :=
  match updateErrorMessages url type with
  | none => some (asyncResp, g)
  | some added =>
    match asyncResp with
    | none => none
    | some res =>
      some (some (added.foldl Response.addMessage res), { g with fwAvailableTimer := none })

/-- The ten error types of a software image or version that
`handleUpdateErrorType` answers. -/
def listedErrorTypes : List String :=
  ["xyz.openbmc_project.Software.Image.Error.UnTarFailure",
    "xyz.openbmc_project.Software.Image.Error.ManifestFileFailure",
    "xyz.openbmc_project.Software.Image.Error.ImageFailure",
    "xyz.openbmc_project.Software.Version.Error.AlreadyExists",
    "xyz.openbmc_project.Software.Image.Error.BusyFailure",
    "xyz.openbmc_project.Software.Version.Error.Incompatible",
    "xyz.openbmc_project.Software.Version.Error.ExpiredAccessKey",
    "xyz.openbmc_project.Software.Version.Error.InvalidSignature",
    "xyz.openbmc_project.Software.Image.Error.InternalFailure",
    "xyz.openbmc_project.Software.Version.Error.HostFile"]

/-- A request whose URL carries the query parameter `HostNumber=3`. -/
def hostThreeRequest : Request := { ioService := true, params := [("HostNumber", "3")] }

/-! ## Dump creation: the `CreateDump` call -/

/-- The function `getDumpEntriesPath` of `log_services.hpp`; the two names are
the build constants `BMCWEB_REDFISH_MANAGER_URI_NAME` and
`BMCWEB_REDFISH_SYSTEM_URI_NAME`. -/
def getDumpEntriesPath (managerName systemName dumpType : String) : String :=
  if dumpType = "BMC" then
    "/redfish/v1/Managers/" ++ managerName ++ "/LogServices/Dump/Entries/"
  else if dumpType = "FaultLog" then
    "/redfish/v1/Managers/" ++ managerName ++ "/LogServices/FaultLog/Entries/"
  else if dumpType = "System" then
    "/redfish/v1/Systems/" ++ systemName ++ "/LogServices/Dump/Entries/"
  else ""

/-- The function `getDumpPath` of `log_services.hpp`; the helper
`bmcweb::asciiToLower` is not among the sources and is a parameter. -/
def getDumpPath (asciiToLower : Char → Char) (dumpType : String) : String :=
  "/xyz/openbmc_project/dump/" ++ String.mk (dumpType.data.map asciiToLower)

/-- The bus call that `createDump` issues: where it goes, its parameters, and
the `dumpPath` its response handler captures. -/
structure CreateDumpCall where
  service : String
  objectPath : String
  interface : String
  method : String
  createDumpParamVec : List (String × String)
  dumpPath : String
deriving DecidableEq, Repr

/-- The `CreateDump` call of `createDump` for a dump type, a client address
(`none` when the request has no session) and the captured `dumpPath`. -/
def createDumpCall (asciiToLower : Char → Char) (session : Option String)
    (dumpType dumpPath : String) : CreateDumpCall :=
  { service := "xyz.openbmc_project.Dump.Manager"
    objectPath := getDumpPath asciiToLower dumpType
    interface := "xyz.openbmc_project.Dump.Create"
    method := "CreateDump"
    createDumpParamVec :=
      match session with
      | none => []
      | some clientIp =>
        [("xyz.openbmc_project.Dump.Create.CreateParameters.OriginatorId", clientIp),
          ("xyz.openbmc_project.Dump.Create.CreateParameters.OriginatorType",
            "xyz.openbmc_project.Common.OriginatedBy.OriginatorTypes.Client")]
    dumpPath := dumpPath }

/-- The function `createDump` of `log_services.hpp`, up to the bus call. `body`
is what `readJsonAction` read for `DiagnosticDataType` and
`OEMDiagnosticDataType`, `none` when it returned false; `res` is the response
as `readJsonAction` left it. The result is the response after the call and
the bus call issued, if any. -/
def createDump (asciiToLower : Char → Char) (managerName systemName : String)
    (res : Response) (body : Option (Option String × Option String))
    (session : Option String) (dumpType : String) : Response × Option CreateDumpCall :=
  if getDumpEntriesPath managerName systemName dumpType = "" then
    (res.addMessage .internalError, none)
  else
    match body with
    | none => (res, none)
    | some (diagnosticDataType, oemDiagnosticDataType) =>
      if dumpType = "System" then
        match oemDiagnosticDataType, diagnosticDataType with
        | some oem, some diagnostic =>
          if oem ≠ "System" ∨ diagnostic ≠ "OEM" then (res.addMessage .internalError, none)
          else
            (res,
              some (createDumpCall asciiToLower session dumpType
                ("/redfish/v1/Systems/" ++ systemName ++ "/LogServices/Dump/")))
        | _, _ =>
          (res.addMessage
            (.actionParameterMissing "CollectDiagnosticData"
              "DiagnosticDataType & OEMDiagnosticDataType"), none)
      else if dumpType = "BMC" then
        match diagnosticDataType with
        | none =>
          (res.addMessage
            (.actionParameterMissing "CollectDiagnosticData" "DiagnosticDataType"), none)
        | some diagnostic =>
          if diagnostic ≠ "Manager" then (res.addMessage .internalError, none)
          else
            (res,
              some (createDumpCall asciiToLower session dumpType
                ("/redfish/v1/Managers/" ++ managerName ++ "/LogServices/Dump/")))
      else (res.addMessage .internalError, none)

/-! ## POST code entries -/

/-- A message of the registry, as far as `fillPostCodeEntry` reads it. -/
structure RegistryMessage where
  message : String
  messageSeverity : String
deriving DecidableEq, Repr

/-- What `fillPostCodeEntry` calls and is not among the sources, or formats
through a stream: `registries::getMessage` and `registries::fillMessageArgs`
of `registries.hpp`, `time_utils::getDateTimeUintUs`, the hexadecimal
rendering of the code (`"0x"`, two digits at least), the rendering of the time
offset in microseconds as seconds with four decimals, and the escaping of an
argument by `boost::urls::format`. -/
structure PostCodeHelpers where
  getMessage : String → Option RegistryMessage
  fillMessageArgs : List String → String → String
  getDateTimeUintUs : Nat → String
  hexCode : Nat → String
  timeOffset : Nat → String
  encode : String → String

/-- One element of the map `postcode`: the time stamp in microseconds it is
keyed by, the code and its secondary data. The map is walked in ascending
order of the time stamp; a list holds its elements in that order. -/
abbrev PostCode := Nat × Nat × List (Fin 256)

/-- The log entry `bmcLogEntry` that `fillPostCodeEntry` formats. -/
structure PostCodeLogEntry where
  odataType : String
  odataId : String
  Name : String
  Id : String
  Message : String
  MessageId : String
  MessageArgs : List String
  EntryType : String
  Severity : String
  Created : String
  AdditionalDataURI : Option String
deriving DecidableEq, Repr

/-- The parts of the response that `fillPostCodeEntry` writes: the messages,
the array `jsonValue["Members"]`, and the entry merged into `jsonValue` by
`update`. -/
structure PostCodeResponse where
  messages : List ResponseMessage
  members : List PostCodeLogEntry
  entry : Option PostCodeLogEntry
deriving DecidableEq, Repr

/-- The body of the loop of `fillPostCodeEntry` from "Get the Created time" on:
the entry of `code` at position `currentCodeIndex` with time offset
`usTimeOffset`. `systemName` is the build constant
`BMCWEB_REDFISH_SYSTEM_URI_NAME`. -/
def postCodeLogEntry (h : PostCodeHelpers) (systemName : String) (message : RegistryMessage)
    (bootIndex currentCodeIndex usTimeOffset : Nat) (code : PostCode) : PostCodeLogEntry :=
  let postcodeEntryID := "B" ++ toString bootIndex ++ "-" ++ toString currentCodeIndex
  let messageArgs := [toString bootIndex, h.timeOffset usTimeOffset, h.hexCode code.2.1]
  { odataType := "#LogEntry.v1_9_0.LogEntry"
    odataId :=
      "/redfish/v1/Systems/" ++ h.encode systemName ++ "/LogServices/PostCodes/Entries/" ++
        h.encode postcodeEntryID
    Name := "POST Code Log Entry"
    Id := postcodeEntryID
    Message := h.fillMessageArgs messageArgs message.message
    MessageId := "OpenBMC.0.2.BIOSPOSTCode"
    MessageArgs := messageArgs
    EntryType := "Event"
    Severity := message.messageSeverity
    Created := h.getDateTimeUintUs code.1
    AdditionalDataURI :=
      if code.2.2 ≠ [] then
        some ("/redfish/v1/Systems/" ++ systemName ++ "/LogServices/PostCodes/Entries/" ++
          postcodeEntryID ++ "/attachment")
      else none }

/-- The time offset of a code at position `currentCodeIndex`: 0 for the first
code, else the unsigned 64-bit difference to the time stamp of the first. -/
def usTimeOffsetOf (currentCodeIndex firstCodeTimeUs : Nat) (code : PostCode) : Nat :=
  if 1 = currentCodeIndex then 0 else (code.1 + 2 ^ 64 - firstCodeTimeUs) % 2 ^ 64

/-- The loop of `fillPostCodeEntry` over the codes still to come;
`currentCodeIndex` and `firstCodeTimeUs` are the locals before the step. -/
def fillPostCodeEntryLoop (h : PostCodeHelpers) (systemName : String)
    (message : RegistryMessage) (bootIndex codeIndex skip top : Nat) :
    List PostCode → Nat → Nat → PostCodeResponse → Bool × PostCodeResponse
  | [], _, _, res => (false, res)
  | code :: rest, currentCodeIndex, firstCodeTimeUs, res =>
    if codeIndex = 0 ∧ (currentCodeIndex + 1 ≤ skip ∨ currentCodeIndex + 1 > top) then
      fillPostCodeEntryLoop h systemName message bootIndex codeIndex skip top rest
        (currentCodeIndex + 1)
        (if 1 = currentCodeIndex + 1 then code.1 else firstCodeTimeUs) res
    else if codeIndex > 0 ∧ currentCodeIndex + 1 ≠ codeIndex then
      fillPostCodeEntryLoop h systemName message bootIndex codeIndex skip top rest
        (currentCodeIndex + 1)
        (if 1 = currentCodeIndex + 1 then code.1 else firstCodeTimeUs) res
    else if (postCodeLogEntry h systemName message bootIndex (currentCodeIndex + 1)
        (usTimeOffsetOf (currentCodeIndex + 1) firstCodeTimeUs code) code).Message = "" then
      (false, { res with messages := res.messages ++ [.internalError] })
    else if codeIndex ≠ 0 then
      (true,
        { res with
            entry := some
              (postCodeLogEntry h systemName message bootIndex (currentCodeIndex + 1)
                (usTimeOffsetOf (currentCodeIndex + 1) firstCodeTimeUs code) code) })
    else
      fillPostCodeEntryLoop h systemName message bootIndex codeIndex skip top rest
        (currentCodeIndex + 1)
        (if 1 = currentCodeIndex + 1 then code.1 else firstCodeTimeUs)
        { res with
            members :=
              res.members ++
                [postCodeLogEntry h systemName message bootIndex (currentCodeIndex + 1)
                  (usTimeOffsetOf (currentCodeIndex + 1) firstCodeTimeUs code) code] }

/-- The function `fillPostCodeEntry` of `log_services.hpp`: the return value and
the response after the call. The callers leave out `codeIndex`, `skip` and
`top` for 0. -/
def fillPostCodeEntry (h : PostCodeHelpers) (systemName : String) (res : PostCodeResponse)
    (postcode : List PostCode) (bootIndex codeIndex skip top : Nat) :
    Bool × PostCodeResponse :=
  match h.getMessage "OpenBMC.0.2.BIOSPOSTCode" with
  | none => (false, res)
  | some message =>
    fillPostCodeEntryLoop h systemName message bootIndex codeIndex skip top postcode 0 0 res

/-- The entry of the code at the 1-based position `p`, when `firstCodeTimeUs`
is the time stamp of the first code. -/
def entryAt (h : PostCodeHelpers) (systemName : String) (message : RegistryMessage)
    (bootIndex firstCodeTimeUs p : Nat) (code : PostCode) : PostCodeLogEntry :=
  postCodeLogEntry h systemName message bootIndex p (usTimeOffsetOf p firstCodeTimeUs code) code

/-- The time stamp of the first code, 0 when there is none. -/
def firstTimeOf : List PostCode → Nat
  | [] => 0
  | code :: _ => code.1

/-- The entries of the codes at the positions `p` with `skip < p ≤ top`, in
order; `start` is the position of the first element of the list. -/
def selectedEntries (h : PostCodeHelpers) (systemName : String) (message : RegistryMessage)
    (bootIndex firstCodeTimeUs skip top : Nat) (codes : List PostCode) (start : Nat) :
    List PostCodeLogEntry :=
  ((codes.enumFrom start).filter (fun pc => decide (skip < pc.1 ∧ pc.1 ≤ top))).map
    (fun pc => entryAt h systemName message bootIndex firstCodeTimeUs pc.1 pc.2)

/-- Puts the arguments in place of the markers `%1` to `%9` of a template;
`none` when a `%` is not followed by such a digit or names an argument that is
not there. -/
def substituteArgs (args : List String) : List Char → Option (List Char)
  | [] => some []
  | [c] => if c = '%' then none else some [c]
  | c :: d :: rest =>
    if c = '%' then
      if '1' ≤ d ∧ d ≤ '9' then
        match args.get? (d.toNat - '1'.toNat), substituteArgs args rest with
        | some a, some r => some (a.data ++ r)
        | _, _ => none
      else none
    else (substituteArgs args (d :: rest)).map (fun r => c :: r)

/-- Stand-ins for the helpers of `fillPostCodeEntry` in examples: the registry
holds the message `BIOSPOSTCode` of the OpenBMC registry, and the arguments
are put in place of the markers of the template, the text being empty when an
argument is missing. -/
def examplePostCodeHelpers : PostCodeHelpers where
  getMessage id :=
    if id = "OpenBMC.0.2.BIOSPOSTCode" then
      some ⟨"Boot Count: %1; Time Stamp Offset: %2 seconds; POST Code: %3", "OK"⟩
    else none
  fillMessageArgs args template :=
    match substituteArgs args template.data with
    | some r => String.mk r
    | none => ""
  getDateTimeUintUs us := toString us
  hexCode code :=
    "0x" ++
      String.mk
        (if (Nat.toDigits 16 code).length < 2 then '0' :: Nat.toDigits 16 code
        else Nat.toDigits 16 code)
  timeOffset us := toString (us / 1000000) ++ "." ++ toString (us % 1000000 / 100)
  encode := id

/-! ## Lemmas on the property loops -/

theorem scanProperty_entriesNamed {α : Type} (key : String)
    (get_if : DbusVariantType → Option α) (values : DBusPropertiesMap) (ptr : Option α) :
    scanProperty key get_if values ptr =
      scanProperty key get_if (entriesNamed key values) ptr := by
  induction values generalizing ptr with
  | nil => rfl
  | cons property rest ih =>
    by_cases h : property.1 = key
    · simp only [entriesNamed, List.filter_cons, h, decide_True, if_true, scanProperty]
      cases get_if property.2 with
      | none => rfl
      | some v => exact ih (some v)
    · simp only [entriesNamed, List.filter_cons, h, decide_False, scanProperty, if_false]
      exact ih ptr

theorem scanProperty_carries {α : Type} {key : String}
    (get_if : DbusVariantType → Option α) {values : DBusPropertiesMap}
    {v : DbusVariantType} (h : carries values key v) (ptr : Option α) :
    scanProperty key get_if values ptr = (get_if v).map some := by
  rw [scanProperty_entriesNamed, h]
  simp only [scanProperty, if_true]
  cases get_if v <;> rfl

theorem scanProperty_lacks {α : Type} {key : String}
    (get_if : DbusVariantType → Option α) {values : DBusPropertiesMap}
    (h : lacks values key) (ptr : Option α) :
    scanProperty key get_if values ptr = some ptr := by
  rw [scanProperty_entriesNamed, h]
  rfl

theorem getDumpCompletionStatus_entriesNamed (values : DBusPropertiesMap) :
    getDumpCompletionStatus values =
      getDumpCompletionStatus (entriesNamed "Status" values) := by
  induction values with
  | nil => rfl
  | cons property rest ih =>
    obtain ⟨key, val⟩ := property
    by_cases h : key = "Status"
    · simp only [entriesNamed, List.filter_cons, h, decide_True, if_true,
        getDumpCompletionStatus]
    · simp only [entriesNamed, List.filter_cons, h, decide_False, getDumpCompletionStatus,
        if_false]
      exact ih

open DumpCreationProgress in
theorem getDumpCompletionStatus_carries {values : DBusPropertiesMap} {v : DbusVariantType}
    (h : carries values "Status" v) :
    getDumpCompletionStatus values =
      match getIfString v with
      | none => DUMP_CREATE_FAILED
      | some value => mapDbusStatusToDumpProgress value := by
  rw [getDumpCompletionStatus_entriesNamed, h]
  simp only [getDumpCompletionStatus, if_true]

theorem getDumpCompletionStatus_lacks {values : DBusPropertiesMap}
    (h : lacks values "Status") :
    getDumpCompletionStatus values = DumpCreationProgress.DUMP_CREATE_INPROGRESS := by
  rw [getDumpCompletionStatus_entriesNamed, h]
  rfl

/-! ## Lemmas on `ends_with` -/

theorem ends_with_exclusive {s a b : String} (ha : ends_with s a = true)
    (hab : ¬ a.data <:+ b.data) (hba : ¬ b.data <:+ a.data) : ends_with s b = false := by
  unfold ends_with at *
  rw [decide_eq_true_eq] at ha
  rw [decide_eq_false_iff_not]
  intro hb
  rcases List.suffix_or_suffix_of_suffix ha hb with h | h
  · exact hab h
  · exact hba h

theorem not_invalid_of_active {s : String} (h : ends_with s "Active" = true) :
    ends_with s "Invalid" = false :=
  ends_with_exclusive h (by decide) (by decide)

theorem not_failed_of_active {s : String} (h : ends_with s "Active" = true) :
    ends_with s "Failed" = false :=
  ends_with_exclusive h (by decide) (by decide)

theorem not_staged_of_active {s : String} (h : ends_with s "Active" = true) :
    ends_with s "Staged" = false :=
  ends_with_exclusive h (by decide) (by decide)

theorem not_invalid_of_staged {s : String} (h : ends_with s "Staged" = true) :
    ends_with s "Invalid" = false :=
  ends_with_exclusive h (by decide) (by decide)

theorem not_failed_of_staged {s : String} (h : ends_with s "Staged" = true) :
    ends_with s "Failed" = false :=
  ends_with_exclusive h (by decide) (by decide)

/-! ## Single steps of `handleCreateTask` -/

theorem handleCreateTask_of_error {ec2 : error_code} (hec : ec2.failed = true)
    (msg : message_t) (taskData : TaskData) :
    handleCreateTask ec2 msg taskData = (task.completed, taskData) := by
  simp [handleCreateTask, hec]

theorem handleCreateTask_progress {ec2 : error_code} (hec : ec2.failed = false)
    {msg : message_t} {p : Fin 256} (hmsg : isProgressSignal msg p) (taskData : TaskData) :
    handleCreateTask ec2 msg taskData =
      (!task.completed,
        { taskData with
            percentComplete := (p.val : Int)
            messages :=
              taskData.messages ++
                [Message.taskProgressChanged (toString taskData.index) p.val]
            timer := some 300 }) := by
  obtain ⟨hi, hv⟩ := hmsg
  have hne : ¬ ("xyz.openbmc_project.Software.ActivationProgress" =
      "xyz.openbmc_project.Software.Activation") := by decide
  simp only [handleCreateTask, hec, hi, hne, if_false, if_true, Bool.false_eq_true,
    scanProperty_carries getIfByte hv, getIfByte, Option.map, TaskData.extendTimer, minutes]

theorem handleCreateTask_staged {ec2 : error_code} (hec : ec2.failed = false)
    {msg : message_t} {s : String} (hmsg : isActivationSignal msg s)
    (hs : ends_with s "Staged" = true) (taskData : TaskData) :
    handleCreateTask ec2 msg taskData =
      (!task.completed,
        { taskData with
            state := "Stopping"
            messages := taskData.messages ++ [Message.taskPaused (toString taskData.index)]
            timer := some 18000 }) := by
  obtain ⟨hi, hv⟩ := hmsg
  simp only [handleCreateTask, hec, hi, if_false, if_true, Bool.false_eq_true,
    scanProperty_carries getIfString hv, getIfString, Option.map, TaskData.extendTimer, hours,
    not_invalid_of_staged hs, not_failed_of_staged hs, hs, Bool.or_self]

theorem handleCreateTask_active {ec2 : error_code} (hec : ec2.failed = false)
    {msg : message_t} {s : String} (hmsg : isActivationSignal msg s)
    (hs : ends_with s "Active" = true) (taskData : TaskData) :
    handleCreateTask ec2 msg taskData =
      (task.completed,
        { taskData with
            messages :=
              taskData.messages ++ [Message.taskCompletedOK (toString taskData.index)]
            state := "Completed" }) := by
  obtain ⟨hi, hv⟩ := hmsg
  simp only [handleCreateTask, hec, hi, if_false, if_true, Bool.false_eq_true,
    scanProperty_carries getIfString hv, getIfString, Option.map,
    not_invalid_of_active hs, not_failed_of_active hs, not_staged_of_active hs, hs,
    Bool.or_self]

/-! ## Sequences of signals -/

theorem deliverAll_append (callback : error_code → message_t → TaskData → Bool × TaskData)
    (xs ys : List message_t) (taskData : TaskData) :
    deliverAll callback (xs ++ ys) taskData =
      ((deliverAll callback xs taskData).1 ++
          (deliverAll callback ys (deliverAll callback xs taskData).2).1,
        (deliverAll callback ys (deliverAll callback xs taskData).2).2) := by
  induction xs generalizing taskData with
  | nil => rfl
  | cons msg rest ih => simp [deliverAll, ih]

theorem deliverAll_progress {msgs : List message_t} {ps : List (Fin 256)}
    (h : List.Forall₂ isProgressSignal msgs ps) (taskData : TaskData) :
    (deliverAll handleCreateTask msgs taskData).1 =
        List.replicate ps.length (!task.completed) ∧
      (deliverAll handleCreateTask msgs taskData).2.index = taskData.index ∧
      (deliverAll handleCreateTask msgs taskData).2.state = taskData.state ∧
      (deliverAll handleCreateTask msgs taskData).2.messages =
        taskData.messages ++
          ps.map (fun p => Message.taskProgressChanged (toString taskData.index) p.val) := by
  induction h generalizing taskData with
  | nil => simp [deliverAll]
  | @cons msg p rest ps' hmp _ ih =>
    have hstep :=
      handleCreateTask_progress (rfl : (⟨0⟩ : error_code).failed = false) hmp taskData
    obtain ⟨h1, h2, h3, h4⟩ := ih (handleCreateTask ⟨0⟩ msg taskData).2
    simp only [deliverAll]
    refine ⟨?_, ?_, ?_, ?_⟩
    · rw [h1, hstep]; simp [List.replicate_succ]
    · rw [h2, hstep]
    · rw [h3, hstep]
    · rw [h4, hstep]; simp

/-! ## Claims -/

/-- C1: progress bytes `p1..pn` delivered without error on the ActivationProgress
interface, followed by one Activation signal whose value ends with "Active":
every call but the last returns pending, the last returns finished, the final
state is "Completed", and the messages appended are exactly
`taskProgressChanged(index, p1), ..., taskProgressChanged(index, pn),
taskCompletedOK(index)` in that order (so they are the whole list when the
task starts with no messages). -/
theorem handleCreateTask_progress_then_active (taskData : TaskData)
    (msgs : List message_t) (ps : List (Fin 256)) (last : message_t) (s : String)
    (hprog : List.Forall₂ isProgressSignal msgs ps)
    (hlast : isActivationSignal last s) (hs : ends_with s "Active" = true) :
    (deliverAll handleCreateTask (msgs ++ [last]) taskData).1 =
        List.replicate ps.length (!task.completed) ++ [task.completed] ∧
      (deliverAll handleCreateTask (msgs ++ [last]) taskData).2.state = "Completed" ∧
      (deliverAll handleCreateTask (msgs ++ [last]) taskData).2.messages =
        taskData.messages ++
          (ps.map (fun p => Message.taskProgressChanged (toString taskData.index) p.val) ++
            [Message.taskCompletedOK (toString taskData.index)]) := by
  obtain ⟨h1, h2, _, h4⟩ := deliverAll_progress hprog taskData
  have hstep := handleCreateTask_active (rfl : (⟨0⟩ : error_code).failed = false) hlast hs
    (deliverAll handleCreateTask msgs taskData).2
  rw [deliverAll_append]
  simp only [deliverAll, hstep, h1, h2, h4, List.append_nil, List.append_assoc]
  exact ⟨trivial, trivial, trivial⟩

/-- Witness of C1 on the progress values 0, 25, 50, 100. -/
theorem handleCreateTask_progress_then_active_witness :
    (deliverAll handleCreateTask
        ([0, 25, 50, 100].map progressSignal ++
          [activationSignal "xyz.openbmc_project.Software.Activation.Activations.Active"])
        startedTask).1 = [false, false, false, false, true] ∧
      (deliverAll handleCreateTask
        ([0, 25, 50, 100].map progressSignal ++
          [activationSignal "xyz.openbmc_project.Software.Activation.Activations.Active"])
        startedTask).2.state = "Completed" ∧
      (deliverAll handleCreateTask
        ([0, 25, 50, 100].map progressSignal ++
          [activationSignal "xyz.openbmc_project.Software.Activation.Activations.Active"])
        startedTask).2.messages =
        [Message.taskProgressChanged "7" 0, Message.taskProgressChanged "7" 25,
          Message.taskProgressChanged "7" 50, Message.taskProgressChanged "7" 100,
          Message.taskCompletedOK "7"] :=
  handleCreateTask_progress_then_active startedTask ([0, 25, 50, 100].map progressSignal)
    [0, 25, 50, 100]
    (activationSignal "xyz.openbmc_project.Software.Activation.Activations.Active")
    "xyz.openbmc_project.Software.Activation.Activations.Active"
    (.cons ⟨rfl, by decide⟩ (.cons ⟨rfl, by decide⟩ (.cons ⟨rfl, by decide⟩
      (.cons ⟨rfl, by decide⟩ .nil))))
    ⟨rfl, by decide⟩ (by decide)

/-- C2: the dump callback with the Progress interface tracked, on a signal
delivered without error. A `Status` of `...OperationStatus.Failed` or
`...OperationStatus.Aborted` sets state "Cancelled" and returns finished; a
`Status` of `...OperationStatus.Completed` appends the success message (and
the `Location` header), sets state "Completed" and returns finished; every
other `Status` string, and a payload without `Status`, returns pending and
leaves the task record (state, messages, captured headers) as it was. -/
theorem createDumpTaskCallback_status (managerName : String) (encode : String → String)
    (cap : DumpCapture) (ec2 : error_code) (msg : message_t) (taskData : TaskData)
    (hcap : cap.isProgressIntfPresent = true) (hec : ec2.failed = false) :
    (∀ s, carries msg.values "Status" (.str s) →
        s = "xyz.openbmc_project.Common.Progress.OperationStatus.Failed" ∨
          s = "xyz.openbmc_project.Common.Progress.OperationStatus.Aborted" →
        createDumpTaskCallback managerName encode cap ec2 msg taskData =
          some (task.completed, { taskData with state := "Cancelled" })) ∧
      (∀ payload,
        carries msg.values "Status"
            (.str "xyz.openbmc_project.Common.Progress.OperationStatus.Completed") →
          taskData.payload = some payload →
        createDumpTaskCallback managerName encode cap ec2 msg taskData =
          some (task.completed,
            { taskData with
                messages := taskData.messages ++ [Message.success]
                payload := some
                  { httpHeaders :=
                      payload.httpHeaders ++
                        [dumpLocationHeader managerName encode cap.dumpId] }
                state := "Completed" })) ∧
      (∀ s, carries msg.values "Status" (.str s) →
        s ≠ "xyz.openbmc_project.Common.Progress.OperationStatus.Failed" →
        s ≠ "xyz.openbmc_project.Common.Progress.OperationStatus.Aborted" →
        s ≠ "xyz.openbmc_project.Common.Progress.OperationStatus.Completed" →
        createDumpTaskCallback managerName encode cap ec2 msg taskData =
          some (!task.completed, taskData)) ∧
      (lacks msg.values "Status" →
        createDumpTaskCallback managerName encode cap ec2 msg taskData =
          some (!task.completed, taskData)) := by
  refine ⟨?_, ?_, ?_, ?_⟩
  · intro s hv hs
    have hst : mapDbusStatusToDumpProgress s = DumpCreationProgress.DUMP_CREATE_FAILED := by
      rcases hs with h | h <;> subst h <;> decide
    simp [createDumpTaskCallback, hec, hcap, getDumpCompletionStatus_carries hv, getIfString,
      hst]
  · intro payload hv hp
    have hst : mapDbusStatusToDumpProgress
        "xyz.openbmc_project.Common.Progress.OperationStatus.Completed" =
          DumpCreationProgress.DUMP_CREATE_SUCCESS := by decide
    simp [createDumpTaskCallback, hec, hcap, getDumpCompletionStatus_carries hv, getIfString,
      hst, dumpTaskCompleted, hp]
  · intro s hv h1 h2 h3
    have hst : mapDbusStatusToDumpProgress s =
        DumpCreationProgress.DUMP_CREATE_INPROGRESS := by
      simp [mapDbusStatusToDumpProgress, h1, h2, h3]
    simp [createDumpTaskCallback, hec, hcap, getDumpCompletionStatus_carries hv, getIfString,
      hst]
  · intro hv
    simp [createDumpTaskCallback, hec, hcap, getDumpCompletionStatus_lacks hv]

/-- Witness of C2: a tracked dump of the started task on the statuses Failed,
Completed, InProgress and on a signal without `Status`. -/
theorem createDumpTaskCallback_status_witness :
    createDumpTaskCallback "bmc" id trackedDump ⟨0⟩
        (statusSignal "xyz.openbmc_project.Common.Progress.OperationStatus.Failed")
        startedTask =
        some (true, { startedTask with state := "Cancelled" }) ∧
      createDumpTaskCallback "bmc" id trackedDump ⟨0⟩
        (statusSignal "xyz.openbmc_project.Common.Progress.OperationStatus.Completed")
        startedTask =
        some (true,
          { startedTask with
              messages := [Message.success]
              payload := some
                ⟨["Location: /redfish/v1/Managers/bmc/LogServices/Dump/Entries/3"]⟩
              state := "Completed" }) ∧
      createDumpTaskCallback "bmc" id trackedDump ⟨0⟩
        (statusSignal "xyz.openbmc_project.Common.Progress.OperationStatus.InProgress")
        startedTask = some (false, startedTask) ∧
      createDumpTaskCallback "bmc" id trackedDump ⟨0⟩
        ⟨"xyz.openbmc_project.Common.Progress", []⟩ startedTask =
        some (false, startedTask) :=
  ⟨(createDumpTaskCallback_status "bmc" id trackedDump ⟨0⟩
      (statusSignal "xyz.openbmc_project.Common.Progress.OperationStatus.Failed")
      startedTask rfl rfl).1
      "xyz.openbmc_project.Common.Progress.OperationStatus.Failed" (by decide) (Or.inl rfl),
    (createDumpTaskCallback_status "bmc" id trackedDump ⟨0⟩
      (statusSignal "xyz.openbmc_project.Common.Progress.OperationStatus.Completed")
      startedTask rfl rfl).2.1 ⟨[]⟩ (by decide) rfl,
    (createDumpTaskCallback_status "bmc" id trackedDump ⟨0⟩
      (statusSignal "xyz.openbmc_project.Common.Progress.OperationStatus.InProgress")
      startedTask rfl rfl).2.2.1
      "xyz.openbmc_project.Common.Progress.OperationStatus.InProgress"
      (by decide) (by decide) (by decide) (by decide),
    (createDumpTaskCallback_status "bmc" id trackedDump ⟨0⟩
      ⟨"xyz.openbmc_project.Common.Progress", []⟩ startedTask rfl rfl).2.2.2 (by decide)⟩

/-- C3: the staged workflow of `handleCreateTask`. An error-free Activation
signal whose value ends with "Staged" sets state "Stopping", appends exactly
one `taskPaused` message, arms the task timer for 5 hours (18000 s) and
returns pending; a later error-free Activation signal whose value ends with
"Active", on whatever the task record is by then, sets state "Completed",
appends exactly one `taskCompletedOK` message and returns finished. -/
theorem handleCreateTask_staged_then_active (ec2 : error_code) (msg : message_t)
    (s : String) (taskData : TaskData) (hec : ec2.failed = false)
    (hmsg : isActivationSignal msg s) (hs : ends_with s "Staged" = true) :
    handleCreateTask ec2 msg taskData =
        (!task.completed,
          { taskData with
              state := "Stopping"
              messages :=
                taskData.messages ++ [Message.taskPaused (toString taskData.index)]
              timer := some (5 * 60 * 60) }) ∧
      ∀ (ec3 : error_code) (later : message_t) (t : String) (taskData2 : TaskData),
        ec3.failed = false → isActivationSignal later t → ends_with t "Active" = true →
        handleCreateTask ec3 later taskData2 =
          (task.completed,
            { taskData2 with
                messages :=
                  taskData2.messages ++ [Message.taskCompletedOK (toString taskData2.index)]
                state := "Completed" }) :=
  ⟨handleCreateTask_staged hec hmsg hs taskData,
    fun _ _ _ taskData2 hec3 hlater ht => handleCreateTask_active hec3 hlater ht taskData2⟩

/-- Witness of C3: the started task is staged, then activated. -/
theorem handleCreateTask_staged_then_active_witness :
    handleCreateTask ⟨0⟩
        (activationSignal "xyz.openbmc_project.Software.Activation.Activations.Staged")
        startedTask =
        (false,
          { startedTask with
              state := "Stopping", messages := [Message.taskPaused "7"],
              timer := some 18000 }) ∧
      handleCreateTask ⟨0⟩
        (activationSignal "xyz.openbmc_project.Software.Activation.Activations.Active")
        { startedTask with
            state := "Stopping", messages := [Message.taskPaused "7"],
            timer := some 18000 } =
        (true,
          { startedTask with
              state := "Completed",
              messages := [Message.taskPaused "7", Message.taskCompletedOK "7"],
              timer := some 18000 }) :=
  ⟨(handleCreateTask_staged_then_active ⟨0⟩
      (activationSignal "xyz.openbmc_project.Software.Activation.Activations.Staged")
      "xyz.openbmc_project.Software.Activation.Activations.Staged" startedTask rfl
      ⟨rfl, by decide⟩ (by decide)).1,
    (handleCreateTask_staged_then_active ⟨0⟩
      (activationSignal "xyz.openbmc_project.Software.Activation.Activations.Staged")
      "xyz.openbmc_project.Software.Activation.Activations.Staged" startedTask rfl
      ⟨rfl, by decide⟩ (by decide)).2 ⟨0⟩
      (activationSignal "xyz.openbmc_project.Software.Activation.Activations.Active")
      "xyz.openbmc_project.Software.Activation.Activations.Active" _ rfl
      ⟨rfl, by decide⟩ (by decide)⟩

/-- C4: percent tracking of `handleCreateTask`. An error-free ActivationProgress
signal carrying the byte `p` as `Progress` sets `percentComplete` to `p`,
appends exactly one `taskProgressChanged(index, p)` message, arms the timer for
5 minutes (300 s), leaves the state (and every other field) unchanged and
returns pending. -/
theorem handleCreateTask_percent_tracking (ec2 : error_code) (msg : message_t)
    (p : Fin 256) (taskData : TaskData) (hec : ec2.failed = false)
    (hmsg : isProgressSignal msg p) :
    handleCreateTask ec2 msg taskData =
        (!task.completed,
          { taskData with
              percentComplete := (p.val : Int)
              messages :=
                taskData.messages ++
                  [Message.taskProgressChanged (toString taskData.index) p.val]
              timer := some (5 * 60) }) ∧
      (handleCreateTask ec2 msg taskData).2.state = taskData.state := by
  rw [handleCreateTask_progress hec hmsg taskData]
  exact ⟨rfl, rfl⟩

/-- Witness of C4: the started task receives progress 25. -/
theorem handleCreateTask_percent_tracking_witness :
    handleCreateTask ⟨0⟩ (progressSignal 25) startedTask =
        (false,
          { startedTask with
              percentComplete := 25, messages := [Message.taskProgressChanged "7" 25],
              timer := some 300 }) ∧
      (handleCreateTask ⟨0⟩ (progressSignal 25) startedTask).2.state = "Running" :=
  handleCreateTask_percent_tracking ⟨0⟩ (progressSignal 25) 25 startedTask rfl
    ⟨rfl, by decide⟩

/-- C5: the crashdump callback is fire-once. For every error code, signal and
task record it returns finished; when the error code is not set it appends
`taskCompletedOK(index)` and sets state "Completed". -/
theorem collectCrashdumpTaskCallback_fire_once (ec2 : error_code) (msg : message_t)
    (taskData : TaskData) :
    (collectCrashdumpTaskCallback ec2 msg taskData).1 = task.completed ∧
      (ec2.failed = false →
        (collectCrashdumpTaskCallback ec2 msg taskData).2 =
          { taskData with
              messages :=
                taskData.messages ++ [Message.taskCompletedOK (toString taskData.index)]
              state := "Completed" }) := by
  unfold collectCrashdumpTaskCallback
  cases h : ec2.failed <;> simp

/-- Witness of C5: the started task on an error-free signal. -/
theorem collectCrashdumpTaskCallback_fire_once_witness :
    (collectCrashdumpTaskCallback ⟨0⟩ (progressSignal 1) startedTask).1 = true ∧
      (collectCrashdumpTaskCallback ⟨0⟩ (progressSignal 1) startedTask).2 =
        { startedTask with messages := [Message.taskCompletedOK "7"], state := "Completed" } :=
  ⟨(collectCrashdumpTaskCallback_fire_once ⟨0⟩ (progressSignal 1) startedTask).1,
    (collectCrashdumpTaskCallback_fire_once ⟨0⟩ (progressSignal 1) startedTask).2 rfl⟩

/-- Counterexample to C6: with the error code set, `handleCreateTask` and the
crashdump callback return finished and hand back the task record untouched, so
no error message is appended and the state stays "Running". -/
theorem callbacks_on_error_counterexample :
    (⟨125⟩ : error_code).failed = true ∧
      handleCreateTask ⟨125⟩ emptySignal startedTask = (true, startedTask) ∧
      collectCrashdumpTaskCallback ⟨125⟩ emptySignal startedTask = (true, startedTask) ∧
      startedTask.messages = [] ∧ startedTask.state = "Running" := by
  decide

/-- C6, amended: whenever the error code of the notification is set, each of
the three callbacks returns finished; the dump callback appends an
`internalError` message and sets state "Cancelled", while `handleCreateTask`
and the crashdump callback leave the task record as it was. -/
theorem callbacks_on_error (managerName : String) (encode : String → String)
    (cap : DumpCapture) (ec2 : error_code) (msg : message_t) (taskData : TaskData)
    (hec : ec2.failed = true) :
    handleCreateTask ec2 msg taskData = (task.completed, taskData) ∧
      createDumpTaskCallback managerName encode cap ec2 msg taskData =
        some (task.completed,
          { taskData with
              messages := taskData.messages ++ [Message.internalError]
              state := "Cancelled" }) ∧
      collectCrashdumpTaskCallback ec2 msg taskData = (task.completed, taskData) := by
  refine ⟨handleCreateTask_of_error hec msg taskData, ?_, ?_⟩
  · simp [createDumpTaskCallback, hec]
  · simp [collectCrashdumpTaskCallback, hec]

/-- Witness of the amended C6: a timer expiry (error 125) on the started task. -/
theorem callbacks_on_error_witness :
    handleCreateTask ⟨125⟩ emptySignal startedTask = (true, startedTask) ∧
      createDumpTaskCallback "bmc" id trackedDump ⟨125⟩ emptySignal startedTask =
        some (true,
          { startedTask with messages := [Message.internalError], state := "Cancelled" }) ∧
      collectCrashdumpTaskCallback ⟨125⟩ emptySignal startedTask = (true, startedTask) :=
  callbacks_on_error "bmc" id trackedDump ⟨125⟩ emptySignal startedTask rfl

/-- Counterexample to C7: an Activation signal without the `Activation`
property returns pending and appends nothing; an `Activation` that is not a
string appends `internalError` but leaves the state "Running"; a dump `Status`
that is not a string sets "Cancelled" but appends no message; and a dump
signal without `Status` returns pending. -/
theorem malformed_payload_counterexample :
    handleCreateTask ⟨0⟩ requestedActivationSignal startedTask = (false, startedTask) ∧
      handleCreateTask ⟨0⟩
        ⟨"xyz.openbmc_project.Software.Activation", [("Activation", .boolean true)]⟩
        startedTask =
        (true, { startedTask with messages := [Message.internalError] }) ∧
      ({ startedTask with messages := [Message.internalError] } : TaskData).state =
        "Running" ∧
      createDumpTaskCallback "bmc" id trackedDump ⟨0⟩
        ⟨"xyz.openbmc_project.Common.Progress", [("Status", .byte 1)]⟩ startedTask =
        some (true, { startedTask with state := "Cancelled" }) ∧
      ({ startedTask with state := "Cancelled" } : TaskData).messages = [] ∧
      createDumpTaskCallback "bmc" id trackedDump ⟨0⟩
        ⟨"xyz.openbmc_project.Common.Progress", []⟩ startedTask =
        some (false, startedTask) := by
  decide

/-- C7, amended: on an error-free signal, a wrongly typed inspected property
makes the callback return finished, `handleCreateTask` appending exactly one
`internalError` message (`Activation` not a string, `Progress` not a byte) and
the dump callback setting state "Cancelled" (`Status` not a string); a missing
inspected property makes the callback return pending with the task record
unchanged. -/
theorem malformed_payload (managerName : String) (encode : String → String)
    (cap : DumpCapture) (ec2 : error_code) (msg : message_t) (taskData : TaskData)
    (hec : ec2.failed = false) :
    (∀ v, msg.iface = "xyz.openbmc_project.Software.Activation" →
        carries msg.values "Activation" v → getIfString v = none →
        (handleCreateTask ec2 msg taskData).1 = task.completed ∧
          (handleCreateTask ec2 msg taskData).2.messages =
            taskData.messages ++ [Message.internalError]) ∧
      (∀ v, msg.iface = "xyz.openbmc_project.Software.ActivationProgress" →
        carries msg.values "Progress" v → getIfByte v = none →
        (handleCreateTask ec2 msg taskData).1 = task.completed ∧
          (handleCreateTask ec2 msg taskData).2.messages =
            taskData.messages ++ [Message.internalError]) ∧
      (msg.iface = "xyz.openbmc_project.Software.Activation" →
        lacks msg.values "Activation" →
        handleCreateTask ec2 msg taskData = (!task.completed, taskData)) ∧
      (msg.iface = "xyz.openbmc_project.Software.ActivationProgress" →
        lacks msg.values "Progress" →
        handleCreateTask ec2 msg taskData = (!task.completed, taskData)) ∧
      (∀ v, cap.isProgressIntfPresent = true → carries msg.values "Status" v →
        getIfString v = none →
        ∃ taskData2,
          createDumpTaskCallback managerName encode cap ec2 msg taskData =
              some (task.completed, taskData2) ∧
            taskData2.state = "Cancelled") ∧
      (cap.isProgressIntfPresent = true → lacks msg.values "Status" →
        createDumpTaskCallback managerName encode cap ec2 msg taskData =
          some (!task.completed, taskData)) := by
  have hne : ¬ ("xyz.openbmc_project.Software.ActivationProgress" =
      "xyz.openbmc_project.Software.Activation") := by decide
  refine ⟨?_, ?_, ?_, ?_, ?_, ?_⟩
  · intro v hi hv hg
    simp [handleCreateTask, hec, hi, scanProperty_carries getIfString hv, hg]
  · intro v hi hv hg
    simp [handleCreateTask, hec, hi, hne, scanProperty_carries getIfByte hv, hg]
  · intro hi hv
    simp [handleCreateTask, hec, hi, scanProperty_lacks getIfString hv]
  · intro hi hv
    simp [handleCreateTask, hec, hi, hne, scanProperty_lacks getIfByte hv]
  · intro v hcap hv hg
    refine ⟨{ taskData with state := "Cancelled" }, ?_, rfl⟩
    simp [createDumpTaskCallback, hec, hcap, getDumpCompletionStatus_carries hv, hg]
  · intro hcap hv
    simp [createDumpTaskCallback, hec, hcap, getDumpCompletionStatus_lacks hv]

/-- Witness of the amended C7: a boolean `Activation` and a missing
`Activation` on the started task. -/
theorem malformed_payload_witness :
    ((handleCreateTask ⟨0⟩
          ⟨"xyz.openbmc_project.Software.Activation", [("Activation", .boolean true)]⟩
          startedTask).1 = true ∧
        (handleCreateTask ⟨0⟩
          ⟨"xyz.openbmc_project.Software.Activation", [("Activation", .boolean true)]⟩
          startedTask).2.messages = [Message.internalError]) ∧
      handleCreateTask ⟨0⟩ requestedActivationSignal startedTask = (false, startedTask) :=
  ⟨(malformed_payload "bmc" id trackedDump ⟨0⟩
      ⟨"xyz.openbmc_project.Software.Activation", [("Activation", .boolean true)]⟩
      startedTask rfl).1 (.boolean true) rfl (by decide) rfl,
    (malformed_payload "bmc" id trackedDump ⟨0⟩ requestedActivationSignal startedTask
      rfl).2.2.1 rfl (by decide)⟩

/-! ## What every call does to messages and state -/

theorem createDumpTaskCallback_isSome (managerName : String) (encode : String → String)
    (cap : DumpCapture) (ec2 : error_code) (msg : message_t) (taskData : TaskData)
    (hp : taskData.payload.isSome = true) :
    (createDumpTaskCallback managerName encode cap ec2 msg taskData).isSome = true := by
  obtain ⟨payload, hpay⟩ := Option.isSome_iff_exists.mp hp
  unfold createDumpTaskCallback dumpTaskCompleted
  simp only [hpay]
  split_ifs <;> rfl

theorem handleCreateTask_effect (ec2 : error_code) (msg : message_t) (taskData : TaskData) :
    ((handleCreateTask ec2 msg taskData).2.messages = taskData.messages ∧
        (handleCreateTask ec2 msg taskData).2.state = taskData.state ∧
        (ec2.failed = true ∨ (handleCreateTask ec2 msg taskData).1 = !task.completed)) ∨
      ∃ m, (handleCreateTask ec2 msg taskData).2.messages = taskData.messages ++ [m] ∧
        ((handleCreateTask ec2 msg taskData).2.state = taskData.state ∨
          (handleCreateTask ec2 msg taskData).2.state ∈
            ["Stopping", "Completed", "Exception"]) := by
  unfold handleCreateTask
  split_ifs
  · exact Or.inl ⟨rfl, rfl, Or.inl ‹_›⟩
  · split
    · exact Or.inr ⟨_, rfl, Or.inl rfl⟩
    · exact Or.inl ⟨rfl, rfl, Or.inr rfl⟩
    · split_ifs
      · exact Or.inr ⟨_, rfl, Or.inr (by simp)⟩
      · exact Or.inr ⟨_, rfl, Or.inr (by simp [TaskData.extendTimer])⟩
      · exact Or.inr ⟨_, rfl, Or.inr (by simp)⟩
      · exact Or.inl ⟨rfl, rfl, Or.inr rfl⟩
  · split
    · exact Or.inr ⟨_, rfl, Or.inl rfl⟩
    · exact Or.inl ⟨rfl, rfl, Or.inr rfl⟩
    · exact Or.inr ⟨_, rfl, Or.inl rfl⟩
  · exact Or.inl ⟨rfl, rfl, Or.inr rfl⟩

open DumpCreationProgress in
theorem createDumpTaskCallback_effect (managerName : String) (encode : String → String)
    (cap : DumpCapture) (ec2 : error_code) (msg : message_t) (taskData : TaskData)
    (r : Bool × TaskData)
    (hr : createDumpTaskCallback managerName encode cap ec2 msg taskData = some r) :
    (r.1 = !task.completed ∧ r.2 = taskData) ∨
      (r.1 = task.completed ∧ r.2.messages = taskData.messages ∧ r.2.state = "Cancelled" ∧
        ec2.failed = false ∧ cap.isProgressIntfPresent = true ∧
        getDumpCompletionStatus msg.values = DUMP_CREATE_FAILED) ∨
      (r.1 = task.completed ∧ ∃ m, r.2.messages = taskData.messages ++ [m] ∧
        (r.2.state = "Cancelled" ∨ r.2.state = "Completed")) := by
  have hdone : dumpTaskCompleted managerName encode cap taskData = some r →
      r.1 = task.completed ∧ ∃ m, r.2.messages = taskData.messages ++ [m] ∧
        (r.2.state = "Cancelled" ∨ r.2.state = "Completed") := by
    intro h
    unfold dumpTaskCompleted at h
    split at h
    · cases h
    · cases h; exact ⟨rfl, _, rfl, Or.inr rfl⟩
  unfold createDumpTaskCallback at hr
  dsimp only at hr
  split_ifs at hr with h1 h2 h3 h4
  · cases hr; exact Or.inr (Or.inr ⟨rfl, _, rfl, Or.inl rfl⟩)
  · cases hr
    exact Or.inr (Or.inl ⟨rfl, rfl, rfl, by simpa using h1, h2, h3⟩)
  · cases hr; exact Or.inl ⟨rfl, rfl⟩
  · exact Or.inr (Or.inr (hdone hr))
  · exact Or.inr (Or.inr (hdone hr))

theorem collectCrashdumpTaskCallback_effect (ec2 : error_code) (msg : message_t)
    (taskData : TaskData) :
    (ec2.failed = true ∧ collectCrashdumpTaskCallback ec2 msg taskData =
        (task.completed, taskData)) ∨
      (ec2.failed = false ∧
        (collectCrashdumpTaskCallback ec2 msg taskData).2.messages =
          taskData.messages ++ [Message.taskCompletedOK (toString taskData.index)] ∧
        (collectCrashdumpTaskCallback ec2 msg taskData).2.state = "Completed") := by
  unfold collectCrashdumpTaskCallback
  cases h : ec2.failed <;> simp

theorem transition_ok {old new : String} (hold : old = "Running" ∨ old = "Stopping")
    (hnew : new = old ∨ new ∈ ["Stopping", "Completed", "Exception", "Cancelled"]) :
    new = old ∨ permitted old new := by
  rcases hnew with h | h
  · exact Or.inl h
  · rcases hold with ho | ho
    · exact Or.inr (Or.inl ⟨ho, h⟩)
    · by_cases hs : new = "Stopping"
      · exact Or.inl (hs.trans ho.symm)
      · refine Or.inr (Or.inr ⟨ho, ?_⟩)
        simp only [List.mem_cons, List.mem_singleton, List.not_mem_nil, or_false] at h ⊢
        rcases h with h | h | h | h
        · exact absurd h hs
        · exact Or.inl h
        · exact Or.inr (Or.inl h)
        · exact Or.inr (Or.inr h)

/-! ## Claims on every call -/

/-- Counterexample to C8: a tracked dump whose `Status` reports Failed returns
finished with state "Cancelled" and the message list still empty; and
`handleCreateTask` called with the error code set returns finished with the
message list still empty. -/
theorem finished_call_appends_counterexample :
    createDumpTaskCallback "bmc" id trackedDump ⟨0⟩
        (statusSignal "xyz.openbmc_project.Common.Progress.OperationStatus.Failed")
        startedTask =
        some (true,
          { index := 7, state := "Cancelled", status := "OK", messages := [],
            percentComplete := 0, payload := some ⟨[]⟩, timer := some 300 }) ∧
      handleCreateTask ⟨125⟩ emptySignal startedTask =
        (true,
          { index := 7, state := "Running", status := "OK", messages := [],
            percentComplete := 0, payload := some ⟨[]⟩, timer := some 300 }) := by
  decide

/-- C8, amended: a call on an error-free notification that returns finished
appends exactly one message during that call, for `handleCreateTask`, for the
crashdump callback, and for the dump callback unless it finishes on a failed
`Status` (Failed, Aborted or not a string); the dump callback also appends
exactly one message when the error code is set. The dump callback returns a
result whenever the task has its captured request attached. -/
theorem finished_call_appends (managerName : String) (encode : String → String)
    (cap : DumpCapture) (ec2 : error_code) (msg : message_t) (taskData : TaskData) :
    (ec2.failed = false → (handleCreateTask ec2 msg taskData).1 = task.completed →
        ∃ m, (handleCreateTask ec2 msg taskData).2.messages = taskData.messages ++ [m]) ∧
      (ec2.failed = false →
        (collectCrashdumpTaskCallback ec2 msg taskData).1 = task.completed ∧
          (collectCrashdumpTaskCallback ec2 msg taskData).2.messages =
            taskData.messages ++ [Message.taskCompletedOK (toString taskData.index)]) ∧
      (∀ r, createDumpTaskCallback managerName encode cap ec2 msg taskData = some r →
        r.1 = task.completed →
        (ec2.failed = true ∨
          ¬ (cap.isProgressIntfPresent = true ∧
            getDumpCompletionStatus msg.values =
              DumpCreationProgress.DUMP_CREATE_FAILED)) →
        ∃ m, r.2.messages = taskData.messages ++ [m]) ∧
      (taskData.payload.isSome = true →
        (createDumpTaskCallback managerName encode cap ec2 msg taskData).isSome = true) := by
  refine ⟨?_, ?_, ?_, createDumpTaskCallback_isSome managerName encode cap ec2 msg taskData⟩
  · intro hec hfin
    rcases handleCreateTask_effect ec2 msg taskData with ⟨_, _, h | h⟩ | ⟨m, hm, _⟩
    · rw [hec] at h; cases h
    · rw [hfin] at h; cases h
    · exact ⟨m, hm⟩
  · intro hec
    refine ⟨by unfold collectCrashdumpTaskCallback; split_ifs <;> rfl, ?_⟩
    rcases collectCrashdumpTaskCallback_effect ec2 msg taskData with ⟨h, _⟩ | ⟨_, h, _⟩
    · rw [hec] at h; cases h
    · exact h
  · intro r hr hfin hcase
    rcases createDumpTaskCallback_effect managerName encode cap ec2 msg taskData r hr with
      ⟨h, _⟩ | ⟨_, _, _, h1, h2, h3⟩ | ⟨_, m, hm, _⟩
    · rw [hfin] at h; cases h
    · rcases hcase with hc | hc
      · rw [h1] at hc; cases hc
      · exact absurd ⟨h2, h3⟩ hc
    · exact ⟨m, hm⟩

/-- Witness of the amended C8: the started task finishing through an "Active"
activation, through the crashdump callback, and through a completed dump. -/
theorem finished_call_appends_witness :
    (∃ m,
        (handleCreateTask ⟨0⟩
          (activationSignal "xyz.openbmc_project.Software.Activation.Activations.Active")
          startedTask).2.messages = startedTask.messages ++ [m]) ∧
      (collectCrashdumpTaskCallback ⟨0⟩ emptySignal startedTask).2.messages =
        [Message.taskCompletedOK "7"] ∧
      (∃ m,
        ({ startedTask with
            messages := [Message.success]
            payload := some
              ⟨["Location: /redfish/v1/Managers/bmc/LogServices/Dump/Entries/3"]⟩
            state := "Completed" } : TaskData).messages = startedTask.messages ++ [m]) :=
  ⟨(finished_call_appends "bmc" id trackedDump ⟨0⟩
      (activationSignal "xyz.openbmc_project.Software.Activation.Activations.Active")
      startedTask).1 rfl (by decide),
    ((finished_call_appends "bmc" id trackedDump ⟨0⟩ emptySignal startedTask).2.1 rfl).2,
    (finished_call_appends "bmc" id trackedDump ⟨0⟩
      (statusSignal "xyz.openbmc_project.Common.Progress.OperationStatus.Completed")
      startedTask).2.2.1
      (true,
        { startedTask with
            messages := [Message.success]
            payload := some
              ⟨["Location: /redfish/v1/Managers/bmc/LogServices/Dump/Entries/3"]⟩
            state := "Completed" })
      (by decide) rfl (Or.inr (by decide))⟩

/-- C9: `messages` is append-only. For each of the three callbacks and every
input, the message list before the call is a prefix of the message list after
the call; the dump callback returns a result whenever the task has its
captured request attached. -/
theorem messages_append_only (managerName : String) (encode : String → String)
    (cap : DumpCapture) (ec2 : error_code) (msg : message_t) (taskData : TaskData) :
    taskData.messages <+: (handleCreateTask ec2 msg taskData).2.messages ∧
      taskData.messages <+: (collectCrashdumpTaskCallback ec2 msg taskData).2.messages ∧
      (∀ r, createDumpTaskCallback managerName encode cap ec2 msg taskData = some r →
        taskData.messages <+: r.2.messages) ∧
      (taskData.payload.isSome = true →
        (createDumpTaskCallback managerName encode cap ec2 msg taskData).isSome = true) := by
  refine ⟨?_, ?_, ?_, createDumpTaskCallback_isSome managerName encode cap ec2 msg taskData⟩
  · rcases handleCreateTask_effect ec2 msg taskData with ⟨h, _⟩ | ⟨m, hm, _⟩
    · rw [h]
    · rw [hm]; exact List.prefix_append _ _
  · rcases collectCrashdumpTaskCallback_effect ec2 msg taskData with ⟨_, h⟩ | ⟨_, h, _⟩
    · rw [h]
    · rw [h]; exact List.prefix_append _ _
  · intro r hr
    rcases createDumpTaskCallback_effect managerName encode cap ec2 msg taskData r hr with
      ⟨_, h⟩ | ⟨_, h, _⟩ | ⟨_, m, hm, _⟩
    · rw [h]
    · rw [h]
    · rw [hm]; exact List.prefix_append _ _

/-- Witness of C9: a dump completing on a task that already holds a message. -/
theorem messages_append_only_witness :
    [Message.taskPaused "7"] <+:
        ({ startedTask with
            messages := [Message.taskPaused "7", Message.success]
            payload := some
              ⟨["Location: /redfish/v1/Managers/bmc/LogServices/Dump/Entries/3"]⟩
            state := "Completed" } : TaskData).messages ∧
      (createDumpTaskCallback "bmc" id trackedDump ⟨0⟩
        (statusSignal "xyz.openbmc_project.Common.Progress.OperationStatus.Completed")
        { startedTask with messages := [Message.taskPaused "7"] }).isSome = true :=
  ⟨(messages_append_only "bmc" id trackedDump ⟨0⟩
      (statusSignal "xyz.openbmc_project.Common.Progress.OperationStatus.Completed")
      { startedTask with messages := [Message.taskPaused "7"] }).2.2.1
      (true,
        { startedTask with
            messages := [Message.taskPaused "7", Message.success]
            payload := some
              ⟨["Location: /redfish/v1/Managers/bmc/LogServices/Dump/Entries/3"]⟩
            state := "Completed" })
      (by decide),
    (messages_append_only "bmc" id trackedDump ⟨0⟩
      (statusSignal "xyz.openbmc_project.Common.Progress.OperationStatus.Completed")
      { startedTask with messages := [Message.taskPaused "7"] }).2.2.2 rfl⟩

/-- C10: the state machine. For every call of any of the three callbacks on a
task whose state is "Running" or "Stopping", the state after the call is
either unchanged or reached by one permitted transition (Running to
Stopping/Completed/Exception/Cancelled, Stopping to
Completed/Exception/Cancelled); the dump callback returns a result whenever
the task has its captured request attached. -/
theorem state_transitions_permitted (managerName : String) (encode : String → String)
    (cap : DumpCapture) (ec2 : error_code) (msg : message_t) (taskData : TaskData)
    (hstate : taskData.state = "Running" ∨ taskData.state = "Stopping") :
    ((handleCreateTask ec2 msg taskData).2.state = taskData.state ∨
        permitted taskData.state (handleCreateTask ec2 msg taskData).2.state) ∧
      ((collectCrashdumpTaskCallback ec2 msg taskData).2.state = taskData.state ∨
        permitted taskData.state (collectCrashdumpTaskCallback ec2 msg taskData).2.state) ∧
      (∀ r, createDumpTaskCallback managerName encode cap ec2 msg taskData = some r →
        r.2.state = taskData.state ∨ permitted taskData.state r.2.state) ∧
      (taskData.payload.isSome = true →
        (createDumpTaskCallback managerName encode cap ec2 msg taskData).isSome = true) := by
  refine ⟨?_, ?_, ?_, createDumpTaskCallback_isSome managerName encode cap ec2 msg taskData⟩
  · apply transition_ok hstate
    rcases handleCreateTask_effect ec2 msg taskData with ⟨_, h, _⟩ | ⟨_, _, h | h⟩
    · exact Or.inl h
    · exact Or.inl h
    · refine Or.inr ?_
      simp only [List.mem_cons, List.mem_singleton, List.not_mem_nil, or_false] at h ⊢
      tauto
  · apply transition_ok hstate
    rcases collectCrashdumpTaskCallback_effect ec2 msg taskData with ⟨_, h⟩ | ⟨_, _, h⟩
    · rw [h]; exact Or.inl rfl
    · rw [h]; exact Or.inr (by simp)
  · intro r hr
    apply transition_ok hstate
    rcases createDumpTaskCallback_effect managerName encode cap ec2 msg taskData r hr with
      ⟨_, h⟩ | ⟨_, _, h, _⟩ | ⟨_, _, _, h | h⟩
    · rw [h]; exact Or.inl rfl
    · rw [h]; exact Or.inr (by simp)
    · rw [h]; exact Or.inr (by simp)
    · rw [h]; exact Or.inr (by simp)

/-- Witness of C10: the started task (state "Running") on a "Staged" activation. -/
theorem state_transitions_permitted_witness :
    (startedTask.state = "Running" ∨ startedTask.state = "Stopping") ∧
      ((handleCreateTask ⟨0⟩
          (activationSignal "xyz.openbmc_project.Software.Activation.Activations.Staged")
          startedTask).2.state = startedTask.state ∨
        permitted startedTask.state
          (handleCreateTask ⟨0⟩
            (activationSignal "xyz.openbmc_project.Software.Activation.Activations.Staged")
            startedTask).2.state) :=
  ⟨Or.inl rfl,
    (state_transitions_permitted "bmc" id trackedDump ⟨0⟩
      (activationSignal "xyz.openbmc_project.Software.Activation.Activations.Staged")
      startedTask (Or.inl rfl)).1⟩

/-! ## Range of `percentComplete` -/

theorem scanProperty_byte_mem {key : String} {values : DBusPropertiesMap}
    {ptr : Option (Fin 256)} {p : Fin 256}
    (h : scanProperty key getIfByte values ptr = some (some p)) :
    ptr = some p ∨
      ∃ property ∈ values, property.1 = key ∧ property.2 = DbusVariantType.byte p := by
  induction values generalizing ptr with
  | nil =>
    simp only [scanProperty, Option.some.injEq] at h
    exact Or.inl h
  | cons property rest ih =>
    unfold scanProperty at h
    split_ifs at h with hk
    · cases hv : property.2 with
      | byte b =>
        rw [hv] at h
        simp only [getIfByte] at h
        rcases ih h with h1 | ⟨q, hq, hq1, hq2⟩
        · simp only [Option.some.injEq] at h1
          exact Or.inr ⟨property, List.mem_cons_self _ _, hk, by rw [hv, h1]⟩
        · exact Or.inr ⟨q, List.mem_cons_of_mem _ hq, hq1, hq2⟩
      | _ => rw [hv] at h; simp [getIfByte] at h
    · rcases ih h with h1 | ⟨q, hq, hq1, hq2⟩
      · exact Or.inl h1
      · exact Or.inr ⟨q, List.mem_cons_of_mem _ hq, hq1, hq2⟩

theorem handleCreateTask_percentComplete (ec2 : error_code) (msg : message_t)
    (taskData : TaskData) :
    (handleCreateTask ec2 msg taskData).2.percentComplete = taskData.percentComplete ∨
      (ec2.failed = false ∧
        msg.iface = "xyz.openbmc_project.Software.ActivationProgress" ∧
        ∃ p : Fin 256,
          (∃ property ∈ msg.values,
            property.1 = "Progress" ∧ property.2 = DbusVariantType.byte p) ∧
          (handleCreateTask ec2 msg taskData).2.percentComplete = (p.val : Int)) := by
  unfold handleCreateTask
  split_ifs with h1 h2 h3
  · exact Or.inl rfl
  · split
    · exact Or.inl rfl
    · exact Or.inl rfl
    · split_ifs <;> exact Or.inl rfl
  · split
    · exact Or.inl rfl
    · exact Or.inl rfl
    · rename_i progress hscan
      rcases scanProperty_byte_mem hscan with h | h
      · cases h
      · exact Or.inr ⟨by simpa using h1, h3, progress, h, rfl⟩
  · exact Or.inl rfl

/-- Counterexample to C11: a Progress byte of 200 on the started task, whose
`percentComplete` is 0, leaves `percentComplete` at 200. -/
theorem handleCreateTask_percentComplete_range_counterexample :
    (0 ≤ startedTask.percentComplete ∧ startedTask.percentComplete ≤ 100) ∧
      (handleCreateTask ⟨0⟩ (progressSignal 200) startedTask).2.percentComplete = 200 ∧
      ¬ (handleCreateTask ⟨0⟩ (progressSignal 200) startedTask).2.percentComplete ≤ 100 := by
  decide

/-- C11, amended: for every notification handed to `handleCreateTask` on a task
whose `percentComplete` is in 0..100, `percentComplete` after the call is
either unchanged or the Progress byte of the payload: it is the byte `p` for
an error-free ActivationProgress notification that carries `p`, it is
unchanged when the error code is set or the notification is of another
interface, and whenever it changes it is the byte of a `Progress` entry of an
error-free ActivationProgress payload. Hence it is an integer in 0..255, and
it is still in 0..100 whenever no `Progress` byte of the payload exceeds
100. -/
theorem handleCreateTask_percentComplete_range (ec2 : error_code) (msg : message_t)
    (taskData : TaskData)
    (h : 0 ≤ taskData.percentComplete ∧ taskData.percentComplete ≤ 100) :
    (∀ p : Fin 256, ec2.failed = false → isProgressSignal msg p →
        (handleCreateTask ec2 msg taskData).2.percentComplete = (p.val : Int)) ∧
      (ec2.failed = true ∨ msg.iface ≠ "xyz.openbmc_project.Software.ActivationProgress" →
        (handleCreateTask ec2 msg taskData).2.percentComplete = taskData.percentComplete) ∧
      ((handleCreateTask ec2 msg taskData).2.percentComplete = taskData.percentComplete ∨
        ∃ p : Fin 256,
          (∃ property ∈ msg.values,
            property.1 = "Progress" ∧ property.2 = DbusVariantType.byte p) ∧
          (handleCreateTask ec2 msg taskData).2.percentComplete = (p.val : Int)) ∧
      (0 ≤ (handleCreateTask ec2 msg taskData).2.percentComplete ∧
        (handleCreateTask ec2 msg taskData).2.percentComplete ≤ 255) ∧
      ((∀ property ∈ msg.values, property.1 = "Progress" → ∀ b : Fin 256,
          property.2 = DbusVariantType.byte b → b.val ≤ 100) →
        0 ≤ (handleCreateTask ec2 msg taskData).2.percentComplete ∧
          (handleCreateTask ec2 msg taskData).2.percentComplete ≤ 100) := by
  refine ⟨fun p hec hmsg => ?_, fun hother => ?_, ?_, ?_, ?_⟩
  · rw [handleCreateTask_progress hec hmsg taskData]
  · rcases handleCreateTask_percentComplete ec2 msg taskData with hpc | ⟨hec, hi, _⟩
    · exact hpc
    · rcases hother with hf | hne
      · rw [hec] at hf; cases hf
      · exact absurd hi hne
  · rcases handleCreateTask_percentComplete ec2 msg taskData with hpc | ⟨_, _, p, hp, hpc⟩
    · exact Or.inl hpc
    · exact Or.inr ⟨p, hp, hpc⟩
  · rcases handleCreateTask_percentComplete ec2 msg taskData with hpc | ⟨_, _, p, _, hpc⟩
    · rw [hpc]
      exact ⟨h.1, by omega⟩
    · rw [hpc]
      have hp : p.val < 256 := p.isLt
      exact ⟨by omega, by omega⟩
  · intro hall
    rcases handleCreateTask_percentComplete ec2 msg taskData with
      hpc | ⟨_, _, p, ⟨q, hq, hq1, hq2⟩, hpc⟩
    · rw [hpc]
      exact h
    · rw [hpc]
      have := hall q hq hq1 p hq2
      omega

/-- Witness of the amended C11: progress 25 on the started task is stored as
25, and a notification of another interface leaves the 0 of the started
task. -/
theorem handleCreateTask_percentComplete_range_witness :
    (handleCreateTask ⟨0⟩ (progressSignal 25) startedTask).2.percentComplete = 25 ∧
      (handleCreateTask ⟨0⟩ requestedActivationSignal startedTask).2.percentComplete =
        startedTask.percentComplete ∧
      0 ≤ (handleCreateTask ⟨0⟩ (progressSignal 25) startedTask).2.percentComplete ∧
        (handleCreateTask ⟨0⟩ (progressSignal 25) startedTask).2.percentComplete ≤ 100 :=
  ⟨(handleCreateTask_percentComplete_range ⟨0⟩ (progressSignal 25) startedTask
      (by decide)).1 25 rfl ⟨rfl, by decide⟩,
    (handleCreateTask_percentComplete_range ⟨0⟩ requestedActivationSignal startedTask
      (by decide)).2.1 (Or.inr (by decide)),
    (handleCreateTask_percentComplete_range ⟨0⟩ (progressSignal 25) startedTask
      (by decide)).2.2.2.2
      (by
        intro property hp _ b hb
        simp only [progressSignal, List.mem_singleton] at hp
        subst hp
        simp only [DbusVariantType.byte.injEq] at hb
        subst hb
        decide)⟩

/-! ## The admission guard of firmware updates -/

/-- C12: when `fwUpdateInProgress` is already true, `monitorForSoftwareAvailable`
returns the globals (`fwUpdateInProgress`, `fwUpdateMatcher`,
`fwUpdateErrorMatcher`, `fwAvailableTimer`) exactly as they were, so no match
and no timer is created; its only effect is one `serviceTemporarilyUnavailable`
message with retry "30" on the response, when a response object was supplied. -/
theorem monitorForSoftwareAvailable_rejects (asyncResp : Option Response) (req : Request)
    (url : String) (timeoutTimeSeconds : Int) (indeterminate : Nat) (g : UpdateGlobals)
    (h : g.fwUpdateInProgress = true) :
    monitorForSoftwareAvailable asyncResp req url timeoutTimeSeconds indeterminate g =
      some (asyncResp.map
        (fun res =>
          { res with
              messages :=
                res.messages ++ [ResponseMessage.serviceTemporarilyUnavailable "30"] }),
        g) := by
  simp [monitorForSoftwareAvailable, h, Response.addMessage]

/-- Witness of C12: a second request while an update is monitored. -/
theorem monitorForSoftwareAvailable_rejects_witness :
    monitorForSoftwareAvailable (some emptyResponse) plainRequest "/redfish/v1/UpdateService"
        25 0 monitoringGlobals =
      some (some
        { messages := [ResponseMessage.serviceTemporarilyUnavailable "30"], jsonValue := [] },
        monitoringGlobals) :=
  monitorForSoftwareAvailable_rejects (some emptyResponse) plainRequest
    "/redfish/v1/UpdateService" 25 0 monitoringGlobals rfl

/-- Counterexample to C13: monitoring sets the guard; the object lookup of
`softwareInterfaceAdded` creates the task (the started task) and clears the
guard at once; the next progress signal makes `handleCreateTask` return
pending, so the guard is false while the decision function still returns
pending. -/
theorem guard_lifetime_counterexample :
    monitorForSoftwareAvailable (some emptyResponse) plainRequest "/redfish/v1/UpdateService"
        25 0 idleGlobals = some (some emptyResponse, monitoringGlobals) ∧
      monitoringGlobals.fwUpdateInProgress = true ∧
      (softwareInterfaceAddedLookup "/xyz/openbmc_project/software/1a2b" 0 ⟨[]⟩ 7 ⟨0⟩
          [("xyz.openbmc_project.Software.BMC.Updater",
            ["xyz.openbmc_project.Software.Activation"])]
          ⟨monitoringGlobals, some emptyResponse, [], []⟩).tasks = [startedTask] ∧
      (softwareInterfaceAddedLookup "/xyz/openbmc_project/software/1a2b" 0 ⟨[]⟩ 7 ⟨0⟩
          [("xyz.openbmc_project.Software.BMC.Updater",
            ["xyz.openbmc_project.Software.Activation"])]
          ⟨monitoringGlobals, some emptyResponse, [], []⟩).globals.fwUpdateInProgress =
        false ∧
      (handleCreateTask ⟨0⟩ (progressSignal 25) startedTask).1 = false := by
  decide

/-- C13, amended: `monitorForSoftwareAvailable` sets `fwUpdateInProgress` when it
starts monitoring; the object-lookup callback of `softwareInterfaceAdded`
clears it in every branch, on success together with the creation of the task,
so it is false before the decision function of that task is first called; and
a signal handed to `handleCreateTask` leaves the globals as they are, whether
the verdict is pending or finished. -/
theorem guard_lifetime :
    (∀ (asyncResp : Option Response) (req : Request) (url : String)
        (timeoutTimeSeconds : Int) (indeterminate : Nat) (g : UpdateGlobals)
        (r : Option Response × UpdateGlobals),
        g.fwUpdateInProgress = false → req.ioService = true →
        monitorForSoftwareAvailable asyncResp req url timeoutTimeSeconds indeterminate g =
          some r →
        r.2.fwUpdateInProgress = true) ∧
      (∀ (objPath : String) (hostNumber : Nat) (payload : Payload) (nextIndex : Nat)
        (ec : error_code) (objInfo : List (String × List String)) (w : UpdateWorld),
        (softwareInterfaceAddedLookup objPath hostNumber payload nextIndex ec objInfo
          w).globals.fwUpdateInProgress = false) ∧
      (∀ (objPath : String) (hostNumber : Nat) (payload : Payload) (nextIndex : Nat)
        (ec : error_code) (info : String × List String) (w : UpdateWorld),
        ec.failed = false → w.asyncResp.isSome = true →
        (softwareInterfaceAddedLookup objPath hostNumber payload nextIndex ec [info]
          w).tasks = w.tasks ++ [createTask nextIndex payload] ∧
          (createTask nextIndex payload).state = "Running") ∧
      (∀ (w : UpdateWorld) (i : Nat) (ec2 : error_code) (msg : message_t)
        (r : Bool × UpdateWorld), w.signal i ec2 msg = some r → r.2.globals = w.globals) := by
  refine ⟨?_, ?_, ?_, ?_⟩
  · intro asyncResp req url timeoutTimeSeconds indeterminate g r hg hio hr
    unfold monitorForSoftwareAvailable at hr
    simp only [hg, hio, Bool.false_eq_true, if_false, Bool.not_true] at hr
    split_ifs at hr
    · split at hr
      · cases hr
      · cases hr; rfl
    · cases hr; rfl
  · intro objPath hostNumber payload nextIndex ec objInfo w
    unfold softwareInterfaceAddedLookup
    by_cases hec : ec.failed = true
    · simp only [hec, if_true]; rfl
    · simp only [hec, if_false]
      rcases objInfo with _ | ⟨info, _ | ⟨info2, rest⟩⟩ <;> rfl
  · intro objPath hostNumber payload nextIndex ec info w hec hresp
    simp [softwareInterfaceAddedLookup, hec, hresp, createTask]
  · intro w i ec2 msg r hr
    unfold UpdateWorld.signal at hr
    split at hr
    · cases hr
    · cases hr; rfl

/-- Witness of the amended C13: the guard is set by the first request, and
cleared when the lookup answers. -/
theorem guard_lifetime_witness :
    monitoringGlobals.fwUpdateInProgress = true ∧
      (softwareInterfaceAddedLookup "/xyz/openbmc_project/software/1a2b" 0 ⟨[]⟩ 7 ⟨0⟩
          [("xyz.openbmc_project.Software.BMC.Updater",
            ["xyz.openbmc_project.Software.Activation"])]
          ⟨monitoringGlobals, some emptyResponse, [], []⟩).tasks =
        [] ++ [createTask 7 ⟨[]⟩] :=
  ⟨guard_lifetime.1 (some emptyResponse) plainRequest "/redfish/v1/UpdateService" 25 0
      idleGlobals (some emptyResponse, monitoringGlobals) rfl rfl (by decide),
    (guard_lifetime.2.2.1 "/xyz/openbmc_project/software/1a2b" 0 ⟨[]⟩ 7 ⟨0⟩
      ("xyz.openbmc_project.Software.BMC.Updater",
        ["xyz.openbmc_project.Software.Activation"])
      ⟨monitoringGlobals, some emptyResponse, [], []⟩ rfl rfl).1⟩

/-! ## Exactly-once finalization -/

theorem dispatch_of_retired (callback : error_code → message_t → TaskData → Bool × TaskData)
    (event : TaskEvent) {t : RegisteredTask} (h : t.retired = true) :
    dispatch callback event t = t := by
  simp [dispatch, h]

theorem dispatchAll_of_retired
    (callback : error_code → message_t → TaskData → Bool × TaskData)
    (events : List TaskEvent) {t : RegisteredTask} (h : t.retired = true) :
    dispatchAll callback events t = t := by
  induction events with
  | nil => rfl
  | cons event rest ih => rw [dispatchAll, dispatch_of_retired callback event h, ih]

theorem dispatch_finishedAtMostOnce
    (callback : error_code → message_t → TaskData → Bool × TaskData)
    (event : TaskEvent) {t : RegisteredTask} (h : finishedAtMostOnce t) :
    finishedAtMostOnce (dispatch callback event t) := by
  rcases h with ⟨hr, hv⟩ | ⟨hr, hv⟩
  · unfold dispatch
    simp only [hr, Bool.false_eq_true, if_false]
    generalize (match event with
      | .notification msg => callback ⟨0⟩ msg t.taskData
      | .timeout => callback ⟨125⟩ ⟨"", []⟩ t.taskData) = r
    cases hfin : r.1
    · refine Or.inl ⟨by simp [task.completed], ?_⟩
      intro v hmem
      rcases List.mem_append.mp hmem with hm | hm
      · exact hv v hm
      · simp only [List.mem_singleton] at hm
        rw [hm]; rfl
    · exact Or.inr ⟨by simp [task.completed], t.verdicts, rfl, hv⟩
  · rw [dispatch_of_retired callback event hr]
    exact Or.inr ⟨hr, hv⟩

theorem dispatchAll_finishedAtMostOnce
    (callback : error_code → message_t → TaskData → Bool × TaskData)
    (events : List TaskEvent) {t : RegisteredTask} (h : finishedAtMostOnce t) :
    finishedAtMostOnce (dispatchAll callback events t) := by
  induction events generalizing t with
  | nil => exact h
  | cons event rest ih => exact ih (dispatch_finishedAtMostOnce callback event h)

/-- C15: exactly-once finalization, on the engine as the specification describes
it. For any sequence of notifications and timeouts delivered to a registered
task, with `handleCreateTask` or any other decision function: in the history
of its calls only the last one can have returned finished, which is the case
exactly when the task is retired; and once the task is retired, whatever is
delivered later reaches neither the decision function nor the task record. -/
theorem exactly_once_finalization
    (callback : error_code → message_t → TaskData → Bool × TaskData)
    (events later : List TaskEvent) (taskData : TaskData) :
    finishedAtMostOnce (dispatchAll callback events (registered taskData)) ∧
      ((dispatchAll callback events (registered taskData)).retired = true →
        dispatchAll callback later (dispatchAll callback events (registered taskData)) =
          dispatchAll callback events (registered taskData)) :=
  ⟨dispatchAll_finishedAtMostOnce callback events
      (Or.inl ⟨rfl, by intro v hv; cases hv⟩),
    fun h => dispatchAll_of_retired callback later h⟩

/-- Witness of C15: the started task gets progress 25, an "Active" activation,
and then a late duplicate and a timeout; the decision function is called
twice. -/
theorem exactly_once_finalization_witness :
    (dispatchAll handleCreateTask
        [.notification (progressSignal 25),
          .notification
            (activationSignal "xyz.openbmc_project.Software.Activation.Activations.Active"),
          .notification
            (activationSignal "xyz.openbmc_project.Software.Activation.Activations.Active"),
          .timeout]
        (registered startedTask)).verdicts = [false, true] ∧
      dispatchAll handleCreateTask
          [.notification
            (activationSignal "xyz.openbmc_project.Software.Activation.Activations.Active"),
            .timeout]
          (dispatchAll handleCreateTask
            [.notification (progressSignal 25),
              .notification
                (activationSignal
                  "xyz.openbmc_project.Software.Activation.Activations.Active")]
            (registered startedTask)) =
        dispatchAll handleCreateTask
          [.notification (progressSignal 25),
            .notification
              (activationSignal "xyz.openbmc_project.Software.Activation.Activations.Active")]
          (registered startedTask) :=
  ⟨by decide,
    (exactly_once_finalization handleCreateTask
      [.notification (progressSignal 25),
        .notification
          (activationSignal "xyz.openbmc_project.Software.Activation.Activations.Active")]
      [.notification
        (activationSignal "xyz.openbmc_project.Software.Activation.Activations.Active"),
        .timeout]
      startedTask).2 (by decide)⟩

/-! ## Post code IDs, host numbers and the interface scan -/

/-- C16: `parsePostCode` on the documented example "B1-2", split into "B1" and
"2". The doc comment promises `currentValue = 1` and `index = 2`; the code
returns true with `currentValue = 2` and `index = 1`. -/
theorem parsePostCode_documented_example :
    plainSplit "B1-2" '-' = ["B1", "2"] ∧
      parsePostCode plainSplit "B1-2" 0 0 = (true, 2, 1) ∧
      parsePostCode plainSplit "B1-2" 0 0 ≠ (true, 1, 2) := by
  decide

/-- C17: `getHostNumber` on a supplied `HostNumber` of "1abc". `std::stoi`
reads 1 and the string itself is stored, so `hostNumberOpt` holds "1abc",
which is none of "0", "1", "2", and the response carries no "error". -/
theorem getHostNumber_stores_raw_string :
    getHostNumber (some "1abc") emptyResponse none =
        ({ messages := [], jsonValue := [("HostNumber", .int 1)] }, some "1abc") ∧
      (getHostNumber (some "1abc") emptyResponse none).2 ≠ none ∧
      (getHostNumber (some "1abc") emptyResponse none).2 ∉
        [some "0", some "1", some "2"] ∧
      (getHostNumber (some "1abc") emptyResponse none).1.lookup "error" = none := by
  decide

/-- C20: the interface scan on two introspection documents. An object that
lists only `org.freedesktop.DBus.Introspectable` makes `isProgressIntfPresent`
true, and an object that lists only `xyz.openbmc_project.Common.Progress`
leaves it false. -/
theorem isProgressIntfPresent_inverted :
    isProgressIntfPresent [some "org.freedesktop.DBus.Introspectable"] = true ∧
      isProgressIntfPresent [some "xyz.openbmc_project.Common.Progress"] = false := by
  decide

/-- What the interface scan computes: `isProgressIntfPresent` is true exactly
when some interface element has a name other than
`xyz.openbmc_project.Common.Progress`. -/
theorem isProgressIntfPresent_iff (names : List (Option String)) :
    isProgressIntfPresent names = true ↔
      ∃ name, some name ∈ names ∧ name ≠ "xyz.openbmc_project.Common.Progress" := by
  induction names with
  | nil => simp [isProgressIntfPresent]
  | cons head rest ih =>
    cases head with
    | none => simp [isProgressIntfPresent, ih]
    | some thisInterfaceName =>
      unfold isProgressIntfPresent
      split_ifs with h
      · rw [ih]
        constructor
        · rintro ⟨name, hm, hn⟩
          exact ⟨name, List.mem_cons_of_mem _ hm, hn⟩
        · rintro ⟨name, hm, hn⟩
          rcases List.mem_cons.mp hm with heq | hm
          · cases heq; exact absurd h hn
          · exact ⟨name, hm, hn⟩
      · simp only [true_iff]
        exact ⟨thisInterfaceName, List.mem_cons_self _ _, h⟩

/-! ## The URL of a simple update -/

theorem parseSimpleUpdateUrlTail_some {lib : UrlLibrary} {imageURI : String}
    {res : Response} {u : url}
    (h : (parseSimpleUpdateUrlTail lib imageURI res).1 = some u) :
    ∃ parsed, lib.parse_absolute_uri imageURI = some parsed ∧
      ((u = lib.normalize parsed ∧ u.scheme = "tftp" ∧ 2 ≤ u.encoded_path.utf8ByteSize) ∨
        (u = lib.normalize parsed ∧ u.scheme = "https" ∧ u.encoded_path ≠ "") ∨
        ((lib.normalize parsed).scheme = "https" ∧ (lib.normalize parsed).encoded_path = "" ∧
          u = { lib.normalize parsed with encoded_path := "/" })) := by
  unfold parseSimpleUpdateUrlTail at h
  cases hp : lib.parse_absolute_uri imageURI with
  | none => rw [hp] at h; cases h
  | some parsed =>
    rw [hp] at h
    refine ⟨parsed, rfl, ?_⟩
    dsimp only at h
    split_ifs at h with h1 h2 h3 h4 h5 h6
    · simp only [Option.some.injEq] at h
      subst h
      exact Or.inl ⟨rfl, h1, by omega⟩
    · simp only [Option.some.injEq] at h
      exact Or.inr (Or.inr ⟨h4, h5, h.symm⟩)
    · simp only [Option.some.injEq] at h
      subst h
      exact Or.inr (Or.inl ⟨rfl, h4, h5⟩)

theorem contains_scheme_prefix (scheme imageURI : String) :
    contains (scheme ++ "://" ++ imageURI) "://" = true := by
  unfold contains
  rw [decide_eq_true_eq]
  exact ⟨scheme.data, imageURI.data, by simp [String.data_append]⟩

theorem parseSimpleUpdateUrl_of_contains {lib : UrlLibrary} {imageURI : String}
    (transferProtocol : Option String) (res : Response)
    (h : contains imageURI "://" = true) :
    parseSimpleUpdateUrl lib imageURI transferProtocol res =
      parseSimpleUpdateUrlTail lib imageURI res := by
  simp [parseSimpleUpdateUrl, h]

theorem parseSimpleUpdateUrlTail_returns {lib : UrlLibrary} {uri : String} {parsed : url}
    (res : Response) (hp : lib.parse_absolute_uri uri = some parsed) :
    ((lib.normalize parsed).scheme = "https" → (lib.normalize parsed).encoded_path = "" →
        parseSimpleUpdateUrlTail lib uri res =
          (some { lib.normalize parsed with encoded_path := "/" }, res)) ∧
      ((lib.normalize parsed).scheme = "https" → (lib.normalize parsed).encoded_path ≠ "" →
        parseSimpleUpdateUrlTail lib uri res = (some (lib.normalize parsed), res)) ∧
      ((lib.normalize parsed).scheme = "tftp" →
        2 ≤ (lib.normalize parsed).encoded_path.utf8ByteSize →
        parseSimpleUpdateUrlTail lib uri res = (some (lib.normalize parsed), res)) ∧
      (((lib.normalize parsed).scheme ≠ "tftp" ∧ (lib.normalize parsed).scheme ≠ "https") ∨
          ((lib.normalize parsed).scheme = "tftp" ∧
            (lib.normalize parsed).encoded_path.utf8ByteSize < 2) →
        (parseSimpleUpdateUrlTail lib uri res).1 = none) := by
  refine ⟨fun hs he => ?_, fun hs hne => ?_, fun hs hlen => ?_, fun hbad => ?_⟩
  · have hnt : (lib.normalize parsed).scheme ≠ "tftp" := by rw [hs]; decide
    simp [parseSimpleUpdateUrlTail, hp, hs, he, url.set_encoded_path]
  · have hnt : (lib.normalize parsed).scheme ≠ "tftp" := by rw [hs]; decide
    simp [parseSimpleUpdateUrlTail, hp, hs, hne]
  · have hne : (lib.normalize parsed).encoded_path ≠ "" := by
      intro he
      rw [he] at hlen
      exact absurd hlen (by decide)
    have hnlt : ¬ (lib.normalize parsed).encoded_path.utf8ByteSize < 2 := by omega
    simp [parseSimpleUpdateUrlTail, hp, hs, hne, hnlt]
  · rcases hbad with ⟨h1, h2⟩ | ⟨h1, h2⟩
    · simp [parseSimpleUpdateUrlTail, hp, h1, h2]
    · simp [parseSimpleUpdateUrlTail, hp, h1, h2]

theorem parseSimpleUpdateUrlTail_response {lib : UrlLibrary} {imageURI : String}
    {res : Response} {u : url}
    (h : (parseSimpleUpdateUrlTail lib imageURI res).1 = some u) :
    (parseSimpleUpdateUrlTail lib imageURI res).2 = res := by
  unfold parseSimpleUpdateUrlTail at h ⊢
  cases hp : lib.parse_absolute_uri imageURI with
  | none => rw [hp] at h; cases h
  | some parsed =>
    rw [hp] at h
    dsimp only at h ⊢
    split_ifs at h ⊢ <;> rfl

theorem parseSimpleUpdateUrl_without_scheme (lib : UrlLibrary) {imageURI : String}
    (transferProtocol : Option String) (res : Response)
    (h : contains imageURI "://" = false) :
    (starts_with imageURI "/" = true ∨
          (transferProtocol ≠ some "TFTP" ∧ transferProtocol ≠ some "HTTPS") →
        (parseSimpleUpdateUrl lib imageURI transferProtocol res).1 = none) ∧
      (starts_with imageURI "/" = false → transferProtocol = some "TFTP" →
        parseSimpleUpdateUrl lib imageURI transferProtocol res =
          parseSimpleUpdateUrlTail lib ("tftp://" ++ imageURI) res) ∧
      (starts_with imageURI "/" = false → transferProtocol = some "HTTPS" →
        parseSimpleUpdateUrl lib imageURI transferProtocol res =
          parseSimpleUpdateUrlTail lib ("https://" ++ imageURI) res) := by
  refine ⟨fun hbad => ?_, fun hsl htp => ?_, fun hsl htp => ?_⟩
  · rcases hbad with hsl | ⟨h1, h2⟩
    · simp [parseSimpleUpdateUrl, h, hsl]
    · by_cases hsl : starts_with imageURI "/" = true
      · simp [parseSimpleUpdateUrl, h, hsl]
      · cases htp : transferProtocol with
        | none => simp [parseSimpleUpdateUrl, h, hsl]
        | some protocol =>
          have hp1 : protocol ≠ "TFTP" := fun hp => h1 (by rw [htp, hp])
          have hp2 : protocol ≠ "HTTPS" := fun hp => h2 (by rw [htp, hp])
          simp [parseSimpleUpdateUrl, h, hsl, hp1, hp2]
  · subst htp
    simp [parseSimpleUpdateUrl, h, hsl]
  · subst htp
    simp [parseSimpleUpdateUrl, h, hsl]

/-- C18: the success postcondition of `parseSimpleUpdateUrl`. Whenever it
returns a URL, the scheme of that URL is "tftp" or "https", its path is not
empty, of at least 2 bytes for tftp, the response is left as it was, and the
URL is the normalized reading of the URI, with path "/" where an https URI had
an empty one. Conversely a URI holding "://" that reads as https with an empty
path after normalization is returned, with path "/"; one that reads as https
with a path, or as tftp with a path of at least 2 bytes, is returned as
normalized. An `ImageURI` without "://" is refused if it starts with "/" or
`TransferProtocol` is neither "TFTP" nor "HTTPS", and is otherwise treated
exactly as "tftp://" + ImageURI or "https://" + ImageURI. -/
theorem parseSimpleUpdateUrl_success (lib : UrlLibrary) (imageURI : String)
    (transferProtocol : Option String) (res : Response) :
    (∀ u, (parseSimpleUpdateUrl lib imageURI transferProtocol res).1 = some u →
        ((u.scheme = "tftp" ∧ 2 ≤ u.encoded_path.utf8ByteSize) ∨ u.scheme = "https") ∧
          u.encoded_path ≠ "" ∧
          (parseSimpleUpdateUrl lib imageURI transferProtocol res).2 = res ∧
          ∃ uri parsed,
            ((contains imageURI "://" = true ∧ uri = imageURI) ∨
              (contains imageURI "://" = false ∧ starts_with imageURI "/" = false ∧
                ((transferProtocol = some "TFTP" ∧ uri = "tftp://" ++ imageURI) ∨
                  (transferProtocol = some "HTTPS" ∧ uri = "https://" ++ imageURI)))) ∧
              lib.parse_absolute_uri uri = some parsed ∧
              (u = lib.normalize parsed ∨
                ((lib.normalize parsed).scheme = "https" ∧
                  (lib.normalize parsed).encoded_path = "" ∧
                  u = { lib.normalize parsed with encoded_path := "/" }))) ∧
      (∀ parsed, contains imageURI "://" = true →
        lib.parse_absolute_uri imageURI = some parsed →
        ((lib.normalize parsed).scheme = "https" → (lib.normalize parsed).encoded_path = "" →
            parseSimpleUpdateUrl lib imageURI transferProtocol res =
              (some { lib.normalize parsed with encoded_path := "/" }, res)) ∧
          ((lib.normalize parsed).scheme = "https" →
            (lib.normalize parsed).encoded_path ≠ "" →
            parseSimpleUpdateUrl lib imageURI transferProtocol res =
              (some (lib.normalize parsed), res)) ∧
          ((lib.normalize parsed).scheme = "tftp" →
            2 ≤ (lib.normalize parsed).encoded_path.utf8ByteSize →
            parseSimpleUpdateUrl lib imageURI transferProtocol res =
              (some (lib.normalize parsed), res)) ∧
          (((lib.normalize parsed).scheme ≠ "tftp" ∧ (lib.normalize parsed).scheme ≠ "https") ∨
              ((lib.normalize parsed).scheme = "tftp" ∧
                (lib.normalize parsed).encoded_path.utf8ByteSize < 2) →
            (parseSimpleUpdateUrl lib imageURI transferProtocol res).1 = none)) ∧
      (contains imageURI "://" = false →
        (starts_with imageURI "/" = true ∨
              (transferProtocol ≠ some "TFTP" ∧ transferProtocol ≠ some "HTTPS") →
            (parseSimpleUpdateUrl lib imageURI transferProtocol res).1 = none) ∧
          (starts_with imageURI "/" = false → transferProtocol = some "TFTP" →
            parseSimpleUpdateUrl lib imageURI transferProtocol res =
              parseSimpleUpdateUrl lib ("tftp://" ++ imageURI) transferProtocol res) ∧
          (starts_with imageURI "/" = false → transferProtocol = some "HTTPS" →
            parseSimpleUpdateUrl lib imageURI transferProtocol res =
              parseSimpleUpdateUrl lib ("https://" ++ imageURI) transferProtocol res)) := by
  have htail : ∀ uri u, (parseSimpleUpdateUrlTail lib uri res).1 = some u →
      ((u.scheme = "tftp" ∧ 2 ≤ u.encoded_path.utf8ByteSize) ∨ u.scheme = "https") ∧
        u.encoded_path ≠ "" ∧
        (parseSimpleUpdateUrlTail lib uri res).2 = res ∧
        ∃ parsed, lib.parse_absolute_uri uri = some parsed ∧
          (u = lib.normalize parsed ∨
            ((lib.normalize parsed).scheme = "https" ∧
              (lib.normalize parsed).encoded_path = "" ∧
              u = { lib.normalize parsed with encoded_path := "/" })) := by
    intro uri u huri
    have hres := parseSimpleUpdateUrlTail_response huri
    obtain ⟨parsed, hparsed, hcase⟩ := parseSimpleUpdateUrlTail_some huri
    rcases hcase with ⟨hu, hs, hlen⟩ | ⟨hu, hs, hne⟩ | ⟨hs, he, hu⟩
    · refine ⟨Or.inl ⟨hs, hlen⟩, ?_, hres, ⟨parsed, hparsed, Or.inl hu⟩⟩
      intro he
      rw [he] at hlen
      exact absurd hlen (by decide)
    · exact ⟨Or.inr hs, hne, hres, ⟨parsed, hparsed, Or.inl hu⟩⟩
    · refine ⟨Or.inr ?_, ?_, hres, ⟨parsed, hparsed, Or.inr ⟨hs, he, hu⟩⟩⟩
      · rw [hu]; exact hs
      · rw [hu]
        show ("/" : String) ≠ ""
        decide
  have htftp : contains ("tftp://" ++ imageURI) "://" = true :=
    contains_scheme_prefix "tftp" imageURI
  have hhttps : contains ("https://" ++ imageURI) "://" = true :=
    contains_scheme_prefix "https" imageURI
  refine ⟨fun u h => ?_, fun parsed hc hp => ?_, fun hc => ?_⟩
  · by_cases hc : contains imageURI "://" = true
    · rw [parseSimpleUpdateUrl_of_contains transferProtocol res hc] at h ⊢
      obtain ⟨h1, h2, h3, parsed, h4, h5⟩ := htail imageURI u h
      exact ⟨h1, h2, h3, imageURI, parsed, Or.inl ⟨hc, rfl⟩, h4, h5⟩
    · have hc2 : contains imageURI "://" = false := by simpa using hc
      obtain ⟨hrefuse, hasTftp, hasHttps⟩ :=
        parseSimpleUpdateUrl_without_scheme lib transferProtocol res hc2
      by_cases hsl : starts_with imageURI "/" = true
      · rw [hrefuse (Or.inl hsl)] at h; cases h
      · have hsl2 : starts_with imageURI "/" = false := by simpa using hsl
        by_cases hp1 : transferProtocol = some "TFTP"
        · rw [hasTftp hsl2 hp1] at h ⊢
          obtain ⟨h1, h2, h3, parsed, h4, h5⟩ := htail _ u h
          exact ⟨h1, h2, h3, _, parsed, Or.inr ⟨hc2, hsl2, Or.inl ⟨hp1, rfl⟩⟩, h4, h5⟩
        · by_cases hp2 : transferProtocol = some "HTTPS"
          · rw [hasHttps hsl2 hp2] at h ⊢
            obtain ⟨h1, h2, h3, parsed, h4, h5⟩ := htail _ u h
            exact ⟨h1, h2, h3, _, parsed, Or.inr ⟨hc2, hsl2, Or.inr ⟨hp2, rfl⟩⟩, h4, h5⟩
          · rw [hrefuse (Or.inr ⟨hp1, hp2⟩)] at h; cases h
  · rw [parseSimpleUpdateUrl_of_contains transferProtocol res hc]
    exact parseSimpleUpdateUrlTail_returns res hp
  · obtain ⟨hrefuse, hasTftp, hasHttps⟩ :=
      parseSimpleUpdateUrl_without_scheme lib transferProtocol res hc
    refine ⟨hrefuse, fun hsl htp => ?_, fun hsl htp => ?_⟩
    · rw [hasTftp hsl htp, parseSimpleUpdateUrl_of_contains transferProtocol res htftp]
    · rw [hasHttps hsl htp, parseSimpleUpdateUrl_of_contains transferProtocol res hhttps]

/-- Witness of C18: `https://example.com`, whose path is empty, is returned
with path "/", as is `example.com` with `TransferProtocol` "HTTPS", and
`1.1.1.1/myfile.bin` with `TransferProtocol` "TFTP" is read as
`tftp://1.1.1.1/myfile.bin`. -/
theorem parseSimpleUpdateUrl_success_witness :
    parseSimpleUpdateUrl exampleLibrary "https://example.com" none emptyResponse =
        (some ⟨"https", some "example.com", "/", none⟩, emptyResponse) ∧
      parseSimpleUpdateUrl exampleLibrary "example.com" (some "HTTPS") emptyResponse =
        (some ⟨"https", some "example.com", "/", none⟩, emptyResponse) ∧
      (parseSimpleUpdateUrl exampleLibrary "1.1.1.1/myfile.bin" (some "TFTP") emptyResponse =
          parseSimpleUpdateUrl exampleLibrary "tftp://1.1.1.1/myfile.bin" (some "TFTP")
            emptyResponse ∧
        parseSimpleUpdateUrl exampleLibrary "tftp://1.1.1.1/myfile.bin" (some "TFTP")
            emptyResponse =
          (some ⟨"tftp", some "1.1.1.1", "/myfile.bin", none⟩, emptyResponse)) :=
  ⟨((parseSimpleUpdateUrl_success exampleLibrary "https://example.com" none emptyResponse).2.1
      ⟨"https", some "example.com", "", none⟩ (by decide) (by decide)).1 (by decide) (by decide),
    (((parseSimpleUpdateUrl_success exampleLibrary "example.com" (some "HTTPS")
      emptyResponse).2.2 (by decide)).2.2 (by decide) rfl).trans
      (((parseSimpleUpdateUrl_success exampleLibrary "https://example.com" (some "HTTPS")
        emptyResponse).2.1 ⟨"https", some "example.com", "", none⟩ (by decide)
        (by decide)).1 (by decide) (by decide)),
    ((parseSimpleUpdateUrl_success exampleLibrary "1.1.1.1/myfile.bin" (some "TFTP")
      emptyResponse).2.2 (by decide)).2.1 (by decide) rfl,
    ((parseSimpleUpdateUrl_success exampleLibrary "tftp://1.1.1.1/myfile.bin" (some "TFTP")
      emptyResponse).2.1 ⟨"tftp", some "1.1.1.1", "/myfile.bin", none⟩ (by decide)
      (by decide)).2.2.1 (by decide) (by decide)⟩

/-! ## Decimal numbers written and read back -/

theorem digitChar_isDigit {k : Nat} (h : k < 10) :
    (Nat.digitChar k).isDigit = true ∧ (Nat.digitChar k).toNat - '0'.toNat = k := by
  interval_cases k <;> decide

theorem toDigitsCore_append (fuel n : Nat) (ds : List Char) :
    Nat.toDigitsCore 10 fuel n ds = Nat.toDigitsCore 10 fuel n [] ++ ds := by
  induction fuel generalizing n ds with
  | zero => simp [Nat.toDigitsCore]
  | succ fuel ih =>
    simp only [Nat.toDigitsCore]
    split_ifs
    · simp
    · rw [ih (n / 10) (Nat.digitChar (n % 10) :: ds), ih (n / 10) [Nat.digitChar (n % 10)]]
      simp

theorem digitsValue_append_singleton (ds : List Char) (c : Char) :
    digitsValue (ds ++ [c]) = digitsValue ds * 10 + (c.toNat - '0'.toNat) := by
  simp [digitsValue, List.foldl_append]

theorem toDigitsCore_spec (fuel n : Nat) (h : n < fuel) :
    (∀ c ∈ Nat.toDigitsCore 10 fuel n [], c.isDigit = true) ∧
      Nat.toDigitsCore 10 fuel n [] ≠ [] ∧
      digitsValue (Nat.toDigitsCore 10 fuel n []) = n := by
  induction fuel generalizing n with
  | zero => omega
  | succ fuel ih =>
    have hd := digitChar_isDigit (Nat.mod_lt n (by decide : 0 < 10))
    simp only [Nat.toDigitsCore]
    split_ifs with h0
    · refine ⟨?_, by simp, ?_⟩
      · intro c hc
        simp only [List.mem_singleton] at hc
        rw [hc]; exact hd.1
      · simp only [digitsValue, List.foldl_cons, List.foldl_nil, Nat.zero_mul, Nat.zero_add]
        rw [hd.2]
        omega
    · have hlt : n / 10 < fuel := by omega
      obtain ⟨h1, h2, h3⟩ := ih (n / 10) hlt
      rw [toDigitsCore_append]
      refine ⟨?_, by simp, ?_⟩
      · intro c hc
        rcases List.mem_append.mp hc with hc | hc
        · exact h1 c hc
        · simp only [List.mem_singleton] at hc
          rw [hc]; exact hd.1
      · rw [digitsValue_append_singleton, h3, hd.2]
        omega

theorem toString_data (n : Nat) : (toString n).data = Nat.toDigits 10 n := rfl

theorem toString_spec (n : Nat) :
    (∀ c ∈ (toString n).data, c.isDigit = true) ∧ (toString n).data ≠ [] ∧
      digitsValue (toString n).data = n := by
  rw [toString_data]
  exact toDigitsCore_spec (n + 1) n (Nat.lt_succ_self n)

theorem takeWhile_append_stop {p : Char → Bool} (l rest : List Char)
    (hl : ∀ c ∈ l, p c = true) (hrest : ∀ c, rest.head? = some c → p c = false) :
    (l ++ rest).takeWhile p = l ∧ (l ++ rest).dropWhile p = rest := by
  induction l with
  | nil =>
    cases rest with
    | nil => simp
    | cons c cs =>
      have := hrest c rfl
      simp [List.takeWhile_cons, List.dropWhile_cons, this]
  | cons a as ih =>
    have ha := hl a (List.mem_cons_self _ _)
    obtain ⟨h1, h2⟩ := ih (fun c hc => hl c (List.mem_cons_of_mem _ hc))
    simp [List.takeWhile_cons, List.dropWhile_cons, ha, h1, h2]

theorem from_chars_toString (bits n value : Nat) (rest : List Char) (hn : n < 2 ^ bits)
    (hrest : ∀ c, rest.head? = some c → c.isDigit = false) :
    from_chars bits ((toString n).data ++ rest) value = (⟨rest, .ok⟩, n) := by
  obtain ⟨h1, h2, h3⟩ := toString_spec n
  obtain ⟨ht, hd⟩ := takeWhile_append_stop (toString n).data rest h1 hrest
  unfold from_chars
  rw [ht, hd, h3]
  simp [h2, hn]

/-! ## Journal entry IDs built and read back -/

theorem getTimestampFromID_verdict (lib : SdId128Library) (res : Response)
    (entryIDStrView : String) (key : EntryKey) :
    ((getTimestampFromID lib res entryIDStrView key).1 = true ∧
        (getTimestampFromID lib res entryIDStrView key).2.1 = res) ∨
      rejectedAsNotFound res (getTimestampFromID lib res entryIDStrView key) := by
  unfold getTimestampFromID rejectedAsNotFound
  dsimp only
  split
  · exact Or.inr ⟨rfl, _, rfl⟩
  · split
    · exact Or.inr ⟨rfl, _, rfl⟩
    · split_ifs
      · exact Or.inr ⟨rfl, _, rfl⟩
      · split
        · exact Or.inl ⟨rfl, rfl⟩
        · split_ifs
          · exact Or.inr ⟨rfl, _, rfl⟩
          · exact Or.inr ⟨rfl, _, rfl⟩
          · exact Or.inl ⟨rfl, rfl⟩

theorem span_underscore (pre rest : List Char) (hpre : '_' ∉ pre) :
    (pre ++ '_' :: rest).takeWhile (fun c => c ≠ '_') = pre ∧
      (pre ++ '_' :: rest).dropWhile (fun c => c ≠ '_') = '_' :: rest := by
  have h : ∀ c ∈ pre, (fun c => decide (c ≠ '_')) c = true := by
    intro c hc
    simp only [ne_eq, decide_not, Bool.not_eq_true', decide_eq_false_iff_not]
    intro heq
    exact hpre (heq ▸ hc)
  have h2 : ∀ c, ('_' :: rest).head? = some c → (fun c => decide (c ≠ '_')) c = false := by
    intro c hc
    simp only [List.head?_cons, Option.some.injEq] at hc
    simp [← hc]
  exact takeWhile_append_stop pre ('_' :: rest) h h2

theorem entryIDOf_data (lib : SdId128Library) (bootID : sd_id128_t) (timestamp index : Nat) :
    (entryIDOf lib bootID timestamp index).data =
      (lib.sd_id128_to_string bootID).data ++
        '_' :: ((toString timestamp).data ++
          (if index > 0 then '_' :: (toString index).data else [])) := by
  unfold entryIDOf
  split_ifs <;> simp [String.data_append]

theorem getTimestampFromID_entryIDOf (lib : SdId128Library) (res : Response)
    (bootID : sd_id128_t) (timestamp index : Nat) (key : EntryKey)
    (hb : lib.sd_id128_from_string (lib.sd_id128_to_string bootID) = some bootID)
    (hu : '_' ∉ (lib.sd_id128_to_string bootID).data)
    (ht : timestamp < 2 ^ 64) (hi : index < 2 ^ 64) :
    getTimestampFromID lib res (entryIDOf lib bootID timestamp index) key =
      (true, res, { bootID := bootID, timestamp := timestamp, index := index }) := by
  have hspan := span_underscore (lib.sd_id128_to_string bootID).data
    ((toString timestamp).data ++ (if index > 0 then '_' :: (toString index).data else [])) hu
  have htail : ∀ c,
      (if index > 0 then '_' :: (toString index).data else []).head? = some c →
        c.isDigit = false := by
    intro c hc
    split_ifs at hc
    · simp only [List.head?_cons, Option.some.injEq] at hc
      rw [← hc]; decide
    · cases hc
  have hts := from_chars_toString 64 timestamp key.timestamp _ ht htail
  have hix := from_chars_toString 64 index key.index [] hi (by intro c hc; cases hc)
  rw [List.append_nil] at hix
  unfold getTimestampFromID
  simp only [entryIDOf_data, hspan.1, hspan.2, hb, hts]
  by_cases h0 : index > 0
  · simp [h0, hix]
  · have : index = 0 := by omega
    simp [this]

theorem getUniqueEntryID_entryIDOf (lib : SdId128Library) (timestamp : Nat)
    (bootID : sd_id128_t) (entryID : String) (firstEntry : Bool)
    (statics : UniqueEntryIDStatics) :
    (getUniqueEntryID lib (some (timestamp, bootID)) entryID firstEntry statics).1 = true ∧
      (getUniqueEntryID lib (some (timestamp, bootID)) entryID firstEntry statics).2.1 =
        entryIDOf lib bootID timestamp
          (getUniqueEntryID lib (some (timestamp, bootID)) entryID firstEntry
            statics).2.2.index :=
  ⟨rfl, rfl⟩

theorem getTimestampFromID_no_underscore (lib : SdId128Library) (res : Response)
    (entryIDStrView : String) (key : EntryKey) (h : '_' ∉ entryIDStrView.data) :
    getTimestampFromID lib res entryIDStrView key =
      (false, res.addMessage (.resourceNotFound "LogEntry" entryIDStrView), key) := by
  have hd : entryIDStrView.data.dropWhile (fun c => c ≠ '_') = [] := by
    rw [List.dropWhile_eq_nil_iff]
    intro c hc
    simp only [ne_eq, decide_not, Bool.not_eq_true', decide_eq_false_iff_not]
    intro heq
    exact h (heq ▸ hc)
  unfold getTimestampFromID
  simp only [hd]

theorem digits_then_other (seg : List Char)
    (h : ¬ (∀ c ∈ seg, c.isDigit = true)) :
    ∃ ds c rest, seg = ds ++ c :: rest ∧ (∀ d ∈ ds, d.isDigit = true) ∧ c.isDigit = false := by
  induction seg with
  | nil => exact absurd (fun c hc => by cases hc) h
  | cons a tl ih =>
    by_cases ha : a.isDigit = true
    · have has : ¬ (∀ c ∈ tl, c.isDigit = true) := by
        intro hall
        apply h
        intro c hc
        rcases List.mem_cons.mp hc with hc | hc
        · rw [hc]; exact ha
        · exact hall c hc
      obtain ⟨ds, c, rest, hseg, hds, hc⟩ := ih has
      refine ⟨a :: ds, c, rest, by rw [hseg]; rfl, ?_, hc⟩
      intro d hd
      rcases List.mem_cons.mp hd with hd | hd
      · rw [hd]; exact ha
      · exact hds d hd
    · exact ⟨[], a, tl, rfl, fun d hd => (by cases hd), by simpa using ha⟩

theorem from_chars_ptr (bits value : Nat) (ds rest : List Char)
    (hds : ∀ d ∈ ds, d.isDigit = true)
    (hrest : ∀ c, rest.head? = some c → c.isDigit = false)
    (hok : (from_chars bits (ds ++ rest) value).1.ec = .ok) :
    (from_chars bits (ds ++ rest) value).1.ptr = rest := by
  obtain ⟨ht, hd⟩ := takeWhile_append_stop ds rest hds hrest
  unfold from_chars at hok ⊢
  rw [ht, hd] at hok ⊢
  split_ifs at hok ⊢
  rfl

theorem getTimestampFromID_non_numeric (lib : SdId128Library) (res : Response)
    (entryIDStrView : String) (key : EntryKey) (pre seg tail : List Char)
    (hid : entryIDStrView.data = pre ++ '_' :: (seg ++ tail))
    (hpre : '_' ∉ pre) (hseg : '_' ∉ seg)
    (htail : ∀ c, tail.head? = some c → c = '_')
    (hnum : ¬ (seg ≠ [] ∧ ∀ c ∈ seg, c.isDigit = true)) :
    (getTimestampFromID lib res entryIDStrView key).1 = false := by
  obtain ⟨hs1, hs2⟩ := span_underscore pre (seg ++ tail) hpre
  have htail2 : ∀ c, tail.head? = some c → c.isDigit = false := by
    intro c hc
    rw [htail c hc]; decide
  unfold getTimestampFromID
  simp only [hid, hs1, hs2]
  cases lib.sd_id128_from_string (String.mk pre) with
  | none => rfl
  | some bootID =>
    dsimp only
    by_cases hall : ∀ c ∈ seg, c.isDigit = true
    · have hnil : seg = [] := by
        by_contra hne
        exact hnum ⟨hne, hall⟩
      have hinv : (from_chars 64 (seg ++ tail) key.timestamp).1.ec = .invalid_argument := by
        have := (takeWhile_append_stop [] tail (fun c hc => by cases hc) htail2).1
        rw [hnil]
        unfold from_chars
        rw [this]
        simp
      simp [hinv]
    · obtain ⟨ds, c, rest, hdec, hds, hc⟩ := digits_then_other seg hall
      have hcu : c ≠ '_' := by
        intro heq
        apply hseg
        rw [hdec, ← heq]
        simp
      have happ : seg ++ tail = ds ++ (c :: (rest ++ tail)) := by rw [hdec]; simp
      have hstop : ∀ x, (c :: (rest ++ tail)).head? = some x → x.isDigit = false := by
        intro x hx
        simp only [List.head?_cons, Option.some.injEq] at hx
        rw [← hx]; exact hc
      by_cases hok : (from_chars 64 (seg ++ tail) key.timestamp).1.ec = .ok
      · have hptr : (from_chars 64 (seg ++ tail) key.timestamp).1.ptr = c :: (rest ++ tail) := by
          rw [happ] at hok ⊢
          exact from_chars_ptr 64 key.timestamp ds _ hds hstop hok
        simp [hok, hptr, hcu]
      · simp [hok]

theorem getTimestampFromID_trailing (lib : SdId128Library) (res : Response)
    (entryIDStrView : String) (key : EntryKey) (pre ts ix trailing : List Char) (c : Char)
    (hid : entryIDStrView.data = pre ++ '_' :: (ts ++ '_' :: (ix ++ c :: trailing)))
    (hpre : '_' ∉ pre) (hts : ∀ d ∈ ts, d.isDigit = true) (hix : ∀ d ∈ ix, d.isDigit = true)
    (hc : c.isDigit = false) :
    (getTimestampFromID lib res entryIDStrView key).1 = false := by
  obtain ⟨hs1, hs2⟩ := span_underscore pre (ts ++ '_' :: (ix ++ c :: trailing)) hpre
  have hstop1 : ∀ x, ('_' :: (ix ++ c :: trailing)).head? = some x → x.isDigit = false := by
    intro x hx
    simp only [List.head?_cons, Option.some.injEq] at hx
    rw [← hx]; decide
  have hstop2 : ∀ x, (c :: trailing).head? = some x → x.isDigit = false := by
    intro x hx
    simp only [List.head?_cons, Option.some.injEq] at hx
    rw [← hx]; exact hc
  unfold getTimestampFromID
  simp only [hid, hs1, hs2]
  cases lib.sd_id128_from_string (String.mk pre) with
  | none => rfl
  | some bootID =>
    dsimp only
    by_cases hok : (from_chars 64 (ts ++ '_' :: (ix ++ c :: trailing)) key.timestamp).1.ec = .ok
    · have hptr := from_chars_ptr 64 key.timestamp ts _ hts hstop1 hok
      by_cases hok2 : (from_chars 64 (ix ++ c :: trailing) key.index).1.ec = .ok
      · have hptr2 := from_chars_ptr 64 key.index ix _ hix hstop2 hok2
        simp [hok, hptr, hok2, hptr2]
      · simp [hok, hptr, hok2]
    · simp [hok]

theorem rejected_of_false (lib : SdId128Library) (res : Response) (entryIDStrView : String)
    (key : EntryKey) (h : (getTimestampFromID lib res entryIDStrView key).1 = false) :
    rejectedAsNotFound res (getTimestampFromID lib res entryIDStrView key) := by
  rcases getTimestampFromID_verdict lib res entryIDStrView key with ⟨ht, _⟩ | hr
  · rw [h] at ht; cases ht
  · exact hr

/-- C19: the journal entry ID round trip. For a boot ID `b` that the journal
library writes without underscore and reads back, and a time stamp `t` of 64
bits: `getUniqueEntryID` returns true and builds `<b>_<t>` when its index is
0 and `<b>_<t>_<i>` when its index `i` is positive; for every index `i` of 64
bits `getTimestampFromID` accepts that ID, leaves the response alone and
returns exactly `bootID = b`, `timestamp = t`, `index = i`. An ID without
underscore, an ID whose time stamp part is empty or not all digits, and an ID
with a character after the index are each rejected with `ResourceNotFound`. -/
theorem entry_id_round_trip (lib : SdId128Library) (res : Response) (key : EntryKey)
    (bootID : sd_id128_t) (timestamp : Nat)
    (hb : lib.sd_id128_from_string (lib.sd_id128_to_string bootID) = some bootID)
    (hu : '_' ∉ (lib.sd_id128_to_string bootID).data) (ht : timestamp < 2 ^ 64) :
    (∀ (entryID : String) (firstEntry : Bool) (statics : UniqueEntryIDStatics),
        (getUniqueEntryID lib (some (timestamp, bootID)) entryID firstEntry statics).1 = true ∧
          (getUniqueEntryID lib (some (timestamp, bootID)) entryID firstEntry statics).2.1 =
            entryIDOf lib bootID timestamp
              (getUniqueEntryID lib (some (timestamp, bootID)) entryID firstEntry
                statics).2.2.index) ∧
      entryIDOf lib bootID timestamp 0 =
        lib.sd_id128_to_string bootID ++ "_" ++ toString timestamp ∧
      (∀ index, 0 < index →
        entryIDOf lib bootID timestamp index =
          lib.sd_id128_to_string bootID ++ "_" ++ toString timestamp ++ "_" ++
            toString index) ∧
      (∀ index, index < 2 ^ 64 →
        getTimestampFromID lib res (entryIDOf lib bootID timestamp index) key =
          (true, res, { bootID := bootID, timestamp := timestamp, index := index })) ∧
      (∀ entryIDStrView : String, '_' ∉ entryIDStrView.data →
        rejectedAsNotFound res (getTimestampFromID lib res entryIDStrView key)) ∧
      (∀ (entryIDStrView : String) (pre seg tail : List Char),
        entryIDStrView.data = pre ++ '_' :: (seg ++ tail) → '_' ∉ pre → '_' ∉ seg →
        (∀ c, tail.head? = some c → c = '_') →
        ¬ (seg ≠ [] ∧ ∀ c ∈ seg, c.isDigit = true) →
        rejectedAsNotFound res (getTimestampFromID lib res entryIDStrView key)) ∧
      (∀ (entryIDStrView : String) (pre ts ix trailing : List Char) (c : Char),
        entryIDStrView.data = pre ++ '_' :: (ts ++ '_' :: (ix ++ c :: trailing)) →
        '_' ∉ pre → (∀ d ∈ ts, d.isDigit = true) → (∀ d ∈ ix, d.isDigit = true) →
        c.isDigit = false →
        rejectedAsNotFound res (getTimestampFromID lib res entryIDStrView key)) := by
  refine ⟨fun entryID firstEntry statics =>
      getUniqueEntryID_entryIDOf lib timestamp bootID entryID firstEntry statics, ?_, ?_,
    fun index hi => getTimestampFromID_entryIDOf lib res bootID timestamp index key hb hu ht hi,
    ?_, ?_, ?_⟩
  · simp [entryIDOf]
  · intro index hpos
    simp [entryIDOf, hpos, String.append_assoc]
  · intro entryIDStrView h
    apply rejected_of_false
    rw [getTimestampFromID_no_underscore lib res entryIDStrView key h]
  · intro entryIDStrView pre seg tail hid hpre hseg htail hnum
    exact rejected_of_false lib res entryIDStrView key
      (getTimestampFromID_non_numeric lib res entryIDStrView key pre seg tail hid hpre hseg
        htail hnum)
  · intro entryIDStrView pre ts ix trailing c hid hpre hts hix hc
    exact rejected_of_false lib res entryIDStrView key
      (getTimestampFromID_trailing lib res entryIDStrView key pre ts ix trailing c hid hpre hts
        hix hc)

/-- Witness of C19: the third entry at time stamp 1234567 of one boot. -/
theorem entry_id_round_trip_witness :
    entryIDOf exampleSdId128 0x0123456789abcdef0123456789abcdef 1234567 3 =
        "0123456789abcdef0123456789abcdef_1234567_3" ∧
      getTimestampFromID exampleSdId128 emptyResponse
          (entryIDOf exampleSdId128 0x0123456789abcdef0123456789abcdef 1234567 3) ⟨0, 0, 0⟩ =
        (true, emptyResponse,
          { bootID := 0x0123456789abcdef0123456789abcdef, timestamp := 1234567, index := 3 }) ∧
      rejectedAsNotFound emptyResponse
        (getTimestampFromID exampleSdId128 emptyResponse "1234567" ⟨0, 0, 0⟩) :=
  ⟨by decide,
    (entry_id_round_trip exampleSdId128 emptyResponse ⟨0, 0, 0⟩
      0x0123456789abcdef0123456789abcdef 1234567 (by decide) (by decide)
      (by decide)).2.2.2.1 3 (by decide),
    (entry_id_round_trip exampleSdId128 emptyResponse ⟨0, 0, 0⟩
      0x0123456789abcdef0123456789abcdef 1234567 (by decide) (by decide)
      (by decide)).2.2.2.2.1 "1234567" (by decide)⟩

/-! ## The host number of a firmware update -/

/-- What `monitorForSoftwareAvailable` does once it is past the guard and has an
I/O service and a response: it starts monitoring, whatever the host number;
a host number above 2 only adds a message to the response. -/
theorem monitorForSoftwareAvailable_starts (res : Response) (req : Request) (url : String)
    (timeoutTimeSeconds : Int) (indeterminate : Nat) (g : UpdateGlobals)
    (hg : g.fwUpdateInProgress = false) (hio : req.ioService = true) :
    ∃ res2 hostNumber,
      monitorForSoftwareAvailable (some res) req url timeoutTimeSeconds indeterminate g =
        some (some res2,
          { fwAvailableTimer := some timeoutTimeSeconds
            fwUpdateInProgress := true
            fwUpdateMatcher := some
              ⟨"interface='org.freedesktop.DBus.ObjectManager',type='signal'," ++
                  "member='InterfacesAdded',path='/xyz/openbmc_project/software'",
                .softwareInterfaceAdded hostNumber⟩
            fwUpdateErrorMatcher := some
              ⟨"interface='org.freedesktop.DBus.ObjectManager',type='signal'," ++
                  "member='InterfacesAdded'," ++ "path='/xyz/openbmc_project/logging'",
                .afterUpdateErrorMatcher url⟩ }) ∧
        hostNumber = hostNumberFromParams req.params (indeterminate % 65536) := by
  unfold monitorForSoftwareAvailable
  simp only [hg, hio, Bool.false_eq_true, if_false, Bool.not_true]
  split_ifs
  · exact ⟨_, _, rfl, rfl⟩
  · exact ⟨_, _, rfl, rfl⟩

/-- C24: `monitorForSoftwareAvailable` on a request with `HostNumber=3`, and on a
request without `HostNumber` while the uninitialised local holds 7. In the
first case `ActionParameterNotSupported` is reported and monitoring starts all
the same: the guard is set, the timer armed, both matches installed, and the
lookup callback hands host number 3 to `activateImage`. In the second case
the host number is the indeterminate 7, not 0. -/
theorem monitorForSoftwareAvailable_host_number_gate :
    monitorForSoftwareAvailable (some emptyResponse) hostThreeRequest
        "/redfish/v1/UpdateService" 25 0 idleGlobals =
        some (some
          { messages := [ResponseMessage.actionParameterNotSupported "3" "HostNumber"],
            jsonValue := [] },
          { monitoringGlobals with
              fwUpdateMatcher := some
                ⟨"interface='org.freedesktop.DBus.ObjectManager',type='signal'," ++
                    "member='InterfacesAdded',path='/xyz/openbmc_project/software'",
                  .softwareInterfaceAdded 3⟩ }) ∧
      monitoringGlobals.fwUpdateInProgress = true ∧
      monitoringGlobals.fwAvailableTimer = some 25 ∧
      (softwareInterfaceAddedLookup "/xyz/openbmc_project/software/1a2b" 3 ⟨[]⟩ 7 ⟨0⟩
          [("xyz.openbmc_project.Software.BMC.Updater",
            ["xyz.openbmc_project.Software.Activation"])]
          ⟨monitoringGlobals, some emptyResponse, [], []⟩).activated =
        [("/xyz/openbmc_project/software/1a2b", "xyz.openbmc_project.Software.BMC.Updater",
          3)] ∧
      plainRequest.params = [] ∧
      monitorForSoftwareAvailable (some emptyResponse) plainRequest
        "/redfish/v1/UpdateService" 25 7 idleGlobals =
        some (some
          { messages := [ResponseMessage.actionParameterNotSupported "7" "HostNumber"],
            jsonValue := [] },
          { monitoringGlobals with
              fwUpdateMatcher := some
                ⟨"interface='org.freedesktop.DBus.ObjectManager',type='signal'," ++
                    "member='InterfacesAdded',path='/xyz/openbmc_project/software'",
                  .softwareInterfaceAdded 7⟩ }) := by
  decide

/-! ## Error types of the image -/

theorem foldl_addMessage (added : List ResponseMessage) (res : Response) :
    added.foldl Response.addMessage res = { res with messages := res.messages ++ added } := by
  induction added generalizing res with
  | nil => simp
  | cons m ms ih => simp [List.foldl_cons, ih, Response.addMessage]

theorem updateErrorMessages_none {url type : String} (h : type ∉ listedErrorTypes) :
    updateErrorMessages url type = none := by
  simp only [listedErrorTypes, List.mem_cons, List.mem_singleton, List.not_mem_nil,
    or_false, not_or] at h
  obtain ⟨h1, h2, h3, h4, h5, h6, h7, h8, h9, h10⟩ := h
  simp only [updateErrorMessages, h1, h2, h3, h4, h5, h6, h7, h8, h9, h10, if_false, or_self]

theorem updateErrorMessages_some {url type : String} (h : type ∈ listedErrorTypes) :
    ∃ m ms, updateErrorMessages url type = some (m :: ms) := by
  simp only [listedErrorTypes, List.mem_cons, List.mem_singleton, List.not_mem_nil,
    or_false] at h
  rcases h with h | h | h | h | h | h | h | h | h | h <;> subst h <;> exact ⟨_, _, rfl⟩

/-- C22: `handleUpdateErrorType`. For an error type that is not one of the ten
listed software image or version error types, the response and the globals,
`fwAvailableTimer` among them, are returned as they were; for each of the ten
listed types at least one message is added to the response, nothing else of
it changes, and `fwAvailableTimer` is cleared. -/
theorem handleUpdateErrorType_effect (asyncResp : Option Response) (url type : String)
    (g : UpdateGlobals) :
    (type ∉ listedErrorTypes →
        handleUpdateErrorType asyncResp url type g = some (asyncResp, g)) ∧
      (type ∈ listedErrorTypes → ∀ res, asyncResp = some res →
        ∃ m ms,
          handleUpdateErrorType asyncResp url type g =
            some (some { res with messages := res.messages ++ m :: ms },
              { g with fwAvailableTimer := none })) := by
  refine ⟨fun hnot => ?_, fun hmem res hres => ?_⟩
  · simp only [handleUpdateErrorType, updateErrorMessages_none hnot]
  · obtain ⟨m, ms, hsome⟩ := @updateErrorMessages_some url type hmem
    exact ⟨m, ms, by simp only [handleUpdateErrorType, hsome, hres, foldl_addMessage]⟩

/-- Witness of C22: an unrelated error type, and the type `AlreadyExists`, while
an update is monitored. -/
theorem handleUpdateErrorType_effect_witness :
    handleUpdateErrorType (some emptyResponse) "/redfish/v1/UpdateService"
        "xyz.openbmc_project.Common.Error.Timeout" monitoringGlobals =
        some (some emptyResponse, monitoringGlobals) ∧
      ∃ m ms,
        handleUpdateErrorType (some emptyResponse) "/redfish/v1/UpdateService"
          "xyz.openbmc_project.Software.Version.Error.AlreadyExists" monitoringGlobals =
          some (some { emptyResponse with messages := emptyResponse.messages ++ m :: ms },
            { monitoringGlobals with fwAvailableTimer := none }) :=
  ⟨(handleUpdateErrorType_effect (some emptyResponse) "/redfish/v1/UpdateService"
      "xyz.openbmc_project.Common.Error.Timeout" monitoringGlobals).1 (by decide),
    (handleUpdateErrorType_effect (some emptyResponse) "/redfish/v1/UpdateService"
      "xyz.openbmc_project.Software.Version.Error.AlreadyExists" monitoringGlobals).2
      (by decide) emptyResponse rfl⟩

/-! ## The `CreateDump` call -/

theorem append_ne_empty (a b : String) (ha : 0 < a.length) : a ++ b ≠ "" := by
  intro h
  have := congrArg String.length h
  simp only [String.length_append, String.length_empty] at this
  omega

theorem getDumpEntriesPath_BMC (managerName systemName : String) :
    getDumpEntriesPath managerName systemName "BMC" ≠ "" := by
  simp only [getDumpEntriesPath, if_true, String.append_assoc]
  exact append_ne_empty _ _ (by decide)

theorem getDumpEntriesPath_System (managerName systemName : String) :
    getDumpEntriesPath managerName systemName "System" ≠ "" := by
  have h1 : ¬ ("System" = "BMC") := by decide
  have h2 : ¬ ("System" = "FaultLog") := by decide
  simp only [getDumpEntriesPath, h1, h2, if_false, if_true, String.append_assoc]
  exact append_ne_empty _ _ (by decide)

/-- C23: the parameter validation of `createDump`, on a request body that
`readJsonAction` could read. The `CreateDump` bus call is issued if and only
if `dumpType` is "BMC" and `DiagnosticDataType` is "Manager", or `dumpType` is
"System", `DiagnosticDataType` is "OEM" and `OEMDiagnosticDataType` is
"System"; when it is issued the response is left as it was, and in every
other case no call is made and one error message, `internalError` or
`actionParameterMissing`, is added to the response. -/
theorem createDump_issued (asciiToLower : Char → Char) (managerName systemName : String)
    (res : Response) (diagnosticDataType oemDiagnosticDataType : Option String)
    (session : Option String) (dumpType : String) :
    (((createDump asciiToLower managerName systemName res
          (some (diagnosticDataType, oemDiagnosticDataType)) session dumpType).2.isSome = true ↔
        (dumpType = "BMC" ∧ diagnosticDataType = some "Manager") ∨
          (dumpType = "System" ∧ diagnosticDataType = some "OEM" ∧
            oemDiagnosticDataType = some "System")) ∧
      ((createDump asciiToLower managerName systemName res
          (some (diagnosticDataType, oemDiagnosticDataType)) session dumpType).2.isSome = true →
        (createDump asciiToLower managerName systemName res
          (some (diagnosticDataType, oemDiagnosticDataType)) session dumpType).1 = res) ∧
      ((createDump asciiToLower managerName systemName res
          (some (diagnosticDataType, oemDiagnosticDataType)) session dumpType).2 = none →
        ∃ m,
          (createDump asciiToLower managerName systemName res
            (some (diagnosticDataType, oemDiagnosticDataType)) session dumpType).1 =
            res.addMessage m ∧
          (m = ResponseMessage.internalError ∨
            ∃ arg1 arg2, m = ResponseMessage.actionParameterMissing arg1 arg2))) := by
  have hBS : ¬ ("BMC" = "System") := by decide
  by_cases hS : dumpType = "System"
  · subst hS
    have hne := getDumpEntriesPath_System managerName systemName
    cases oemDiagnosticDataType with
    | none =>
      cases diagnosticDataType <;>
        simp [createDump, hne] <;> exact ⟨_, rfl, Or.inr ⟨_, _, rfl⟩⟩
    | some oem =>
      cases diagnosticDataType with
      | none => simp [createDump, hne]; exact ⟨_, rfl, Or.inr ⟨_, _, rfl⟩⟩
      | some diagnostic =>
        by_cases h1 : oem = "System" <;> by_cases h2 : diagnostic = "OEM" <;>
          simp [createDump, hne, h1, h2] <;> exact ⟨_, rfl, Or.inl rfl⟩
  · by_cases hB : dumpType = "BMC"
    · subst hB
      have hne := getDumpEntriesPath_BMC managerName systemName
      cases diagnosticDataType with
      | none => simp [createDump, hne]; exact ⟨_, rfl, Or.inr ⟨_, _, rfl⟩⟩
      | some diagnostic =>
        by_cases h2 : diagnostic = "Manager"
        · simp [createDump, hne, h2]
        · simp [createDump, hne, h2]
          exact ⟨_, rfl, Or.inl rfl⟩
    · have : (createDump asciiToLower managerName systemName res
          (some (diagnosticDataType, oemDiagnosticDataType)) session dumpType) =
          (res.addMessage .internalError, none) := by
        unfold createDump
        split_ifs <;> rfl
      rw [this]
      simp [hS, hB]
      exact ⟨_, rfl, Or.inl rfl⟩

/-- Witness of C23: a BMC dump asked for with `DiagnosticDataType` "Manager" is
created, and a FaultLog dump is not. -/
theorem createDump_issued_witness :
    (createDump Char.toLower "bmc" "system" emptyResponse (some (some "Manager", none))
        (some "192.0.2.1") "BMC").2.isSome = true ∧
      ((createDump Char.toLower "bmc" "system" emptyResponse (some (some "Manager", none))
        none "FaultLog").2.isSome = true ↔
        (("FaultLog" : String) = "BMC" ∧ (some "Manager" : Option String) = some "Manager") ∨
          (("FaultLog" : String) = "System" ∧ (some "Manager" : Option String) = some "OEM" ∧
            (none : Option String) = some "System")) :=
  ⟨(createDump_issued Char.toLower "bmc" "system" emptyResponse (some "Manager") none
      (some "192.0.2.1") "BMC").1.mpr (Or.inl ⟨rfl, rfl⟩),
    (createDump_issued Char.toLower "bmc" "system" emptyResponse (some "Manager") none none
      "FaultLog").1⟩

/-! ## The selection of POST code entries -/

theorem fillPostCodeEntryLoop_collect (h : PostCodeHelpers) (systemName : String)
    (message : RegistryMessage) (bootIndex skip top : Nat)
    (hfill : ∀ a b c : String, h.fillMessageArgs [a, b, c] message.message ≠ "")
    (rest : List PostCode) (currentCodeIndex firstCodeTimeUs : Nat) (res : PostCodeResponse)
    (hcur : 1 ≤ currentCodeIndex) :
    fillPostCodeEntryLoop h systemName message bootIndex 0 skip top rest currentCodeIndex
        firstCodeTimeUs res =
      (false,
        { res with
            members :=
              res.members ++
                selectedEntries h systemName message bootIndex firstCodeTimeUs skip top rest
                  (currentCodeIndex + 1) }) := by
  induction rest generalizing currentCodeIndex res with
  | nil => simp [fillPostCodeEntryLoop, selectedEntries]
  | cons code rest ih =>
    have hne : ¬ (1 = currentCodeIndex + 1) := by omega
    have hmsg : (postCodeLogEntry h systemName message bootIndex (currentCodeIndex + 1)
        (usTimeOffsetOf (currentCodeIndex + 1) firstCodeTimeUs code) code).Message ≠ "" :=
      hfill _ _ _
    unfold fillPostCodeEntryLoop
    by_cases hsel : skip < currentCodeIndex + 1 ∧ currentCodeIndex + 1 ≤ top
    · have hcond : ¬ (currentCodeIndex + 1 ≤ skip ∨ currentCodeIndex + 1 > top) := by omega
      simp only [hcond, and_false, if_false, hne, gt_iff_lt, lt_self_iff_false, false_and,
        hmsg, ne_eq, not_true_eq_false]
      rw [ih (currentCodeIndex + 1) _ (by omega)]
      simp [selectedEntries, List.enumFrom_cons, List.filter_cons, hsel, entryAt]
    · have hcond : currentCodeIndex + 1 ≤ skip ∨ currentCodeIndex + 1 > top := by omega
      simp only [hcond, and_self, if_true, hne, if_false]
      rw [ih (currentCodeIndex + 1) _ (by omega)]
      simp [selectedEntries, List.enumFrom_cons, List.filter_cons, hsel]

theorem fillPostCodeEntryLoop_single (h : PostCodeHelpers) (systemName : String)
    (message : RegistryMessage) (bootIndex codeIndex skip top : Nat)
    (hfill : ∀ a b c : String, h.fillMessageArgs [a, b, c] message.message ≠ "")
    (rest : List PostCode) (currentCodeIndex firstCodeTimeUs : Nat) (res : PostCodeResponse)
    (hcur : 1 ≤ currentCodeIndex) (hlt : currentCodeIndex < codeIndex) :
    fillPostCodeEntryLoop h systemName message bootIndex codeIndex skip top rest
        currentCodeIndex firstCodeTimeUs res =
      match rest.get? (codeIndex - currentCodeIndex - 1) with
      | some code =>
        (true,
          { res with
              entry := some
                (entryAt h systemName message bootIndex firstCodeTimeUs codeIndex code) })
      | none => (false, res) := by
  induction rest generalizing currentCodeIndex with
  | nil => simp [fillPostCodeEntryLoop]
  | cons code rest ih =>
    have hne : ¬ (1 = currentCodeIndex + 1) := by omega
    have h0 : ¬ codeIndex = 0 := by omega
    have hpos : codeIndex > 0 := by omega
    have hmsg : (postCodeLogEntry h systemName message bootIndex (currentCodeIndex + 1)
        (usTimeOffsetOf (currentCodeIndex + 1) firstCodeTimeUs code) code).Message ≠ "" :=
      hfill _ _ _
    unfold fillPostCodeEntryLoop
    by_cases heq : currentCodeIndex + 1 = codeIndex
    · subst heq
      have hidx : currentCodeIndex + 1 - currentCodeIndex - 1 = 0 := by omega
      simp only [h0, false_and, if_false, ne_eq, not_true_eq_false, and_false,
        hmsg, not_false_eq_true, if_true, hidx, List.get?_cons_zero, entryAt]
    · have hidx : codeIndex - currentCodeIndex - 1 = (codeIndex - (currentCodeIndex + 1) - 1) + 1 := by
        omega
      simp only [h0, false_and, if_false, hpos, heq, ne_eq, not_false_eq_true, and_self,
        if_true, hne]
      rw [ih (currentCodeIndex + 1) (by omega) (by omega), hidx, List.get?_cons_succ]

theorem usTimeOffsetOf_one (firstCodeTimeUs : Nat) (code : PostCode) :
    usTimeOffsetOf 1 firstCodeTimeUs code = 0 := by
  simp [usTimeOffsetOf]

theorem fillPostCodeEntry_collect (h : PostCodeHelpers) (systemName : String)
    (message : RegistryMessage) (res : PostCodeResponse) (postcode : List PostCode)
    (bootIndex skip top : Nat)
    (hmsg : h.getMessage "OpenBMC.0.2.BIOSPOSTCode" = some message)
    (hfill : ∀ a b c : String, h.fillMessageArgs [a, b, c] message.message ≠ "") :
    fillPostCodeEntry h systemName res postcode bootIndex 0 skip top =
      (false,
        { res with
            members :=
              res.members ++
                selectedEntries h systemName message bootIndex (firstTimeOf postcode) skip top
                  postcode 1 }) := by
  unfold fillPostCodeEntry
  rw [hmsg]
  cases postcode with
  | nil => simp [fillPostCodeEntryLoop, selectedEntries]
  | cons code rest =>
    have hm : (postCodeLogEntry h systemName message bootIndex (0 + 1)
        (usTimeOffsetOf (0 + 1) 0 code) code).Message ≠ "" := hfill _ _ _
    unfold fillPostCodeEntryLoop
    by_cases hsel : skip < 0 + 1 ∧ 0 + 1 ≤ top
    · have hcond : ¬ (0 + 1 ≤ skip ∨ 0 + 1 > top) := by omega
      simp only [hcond, and_false, if_false, gt_iff_lt, lt_self_iff_false, false_and,
        hm, ne_eq, not_true_eq_false, if_true]
      rw [fillPostCodeEntryLoop_collect h systemName message bootIndex skip top hfill rest
        (0 + 1) code.1 _ (by omega)]
      have hsel2 : skip = 0 ∧ 1 ≤ top := by omega
      simp [selectedEntries, List.enumFrom_cons, List.filter_cons, hsel2, entryAt, firstTimeOf,
        usTimeOffsetOf]
    · have hcond : 0 + 1 ≤ skip ∨ 0 + 1 > top := by omega
      simp only [hcond, and_self, if_true]
      rw [fillPostCodeEntryLoop_collect h systemName message bootIndex skip top hfill rest
        (0 + 1) code.1 _ (by omega)]
      have hsel2 : ¬ (skip = 0 ∧ 1 ≤ top) := by omega
      simp [selectedEntries, List.enumFrom_cons, List.filter_cons, hsel2, firstTimeOf]

theorem fillPostCodeEntry_single (h : PostCodeHelpers) (systemName : String)
    (message : RegistryMessage) (res : PostCodeResponse) (postcode : List PostCode)
    (bootIndex codeIndex skip top : Nat)
    (hmsg : h.getMessage "OpenBMC.0.2.BIOSPOSTCode" = some message)
    (hfill : ∀ a b c : String, h.fillMessageArgs [a, b, c] message.message ≠ "")
    (hpos : 0 < codeIndex) :
    fillPostCodeEntry h systemName res postcode bootIndex codeIndex skip top =
      match postcode.get? (codeIndex - 1) with
      | some code =>
        (true,
          { res with
              entry := some
                (entryAt h systemName message bootIndex (firstTimeOf postcode) codeIndex
                  code) })
      | none => (false, res) := by
  unfold fillPostCodeEntry
  rw [hmsg]
  cases postcode with
  | nil => simp [fillPostCodeEntryLoop]
  | cons code rest =>
    have h0 : ¬ codeIndex = 0 := by omega
    have hm : (postCodeLogEntry h systemName message bootIndex (0 + 1)
        (usTimeOffsetOf (0 + 1) 0 code) code).Message ≠ "" := hfill _ _ _
    unfold fillPostCodeEntryLoop
    by_cases heq : 0 + 1 = codeIndex
    · subst heq
      have hm2 : (postCodeLogEntry h systemName message bootIndex (0 + 1) 0 code).Message ≠
          "" := hfill _ _ _
      simp only [false_and, if_false, ne_eq, not_true_eq_false, and_false,
        not_false_eq_true, if_true, Nat.add_sub_cancel, List.get?_cons_zero, entryAt,
        usTimeOffsetOf, h0, hm2]
    · have hidx : codeIndex - 1 = (codeIndex - (0 + 1) - 1) + 1 := by omega
      have hgt : codeIndex > 0 := hpos
      simp only [h0, false_and, if_false, hgt, heq, ne_eq, not_false_eq_true, and_self,
        if_true]
      rw [fillPostCodeEntryLoop_single h systemName message bootIndex codeIndex skip top hfill
        rest (0 + 1) code.1 res (by omega) (by omega), hidx, List.get?_cons_succ]
      rfl

theorem examplePostCodeHelpers_fill (a b c : String) :
    examplePostCodeHelpers.fillMessageArgs [a, b, c]
        "Boot Count: %1; Time Stamp Offset: %2 seconds; POST Code: %3" ≠ "" := by
  have h : examplePostCodeHelpers.fillMessageArgs [a, b, c]
        "Boot Count: %1; Time Stamp Offset: %2 seconds; POST Code: %3" =
      "Boot Count: " ++ a ++ "; Time Stamp Offset: " ++ b ++ " seconds; POST Code: " ++ c := by
    apply String.ext
    simp [examplePostCodeHelpers, substituteArgs]
  rw [h]
  simp only [String.append_assoc]
  exact append_ne_empty _ _ (by decide)

/-- C21: the selection of `fillPostCodeEntry`, when the registry holds the
message `OpenBMC.0.2.BIOSPOSTCode` and filling the three arguments of an entry
(boot index, time offset, code) into it yields a text that is not empty.
With `codeIndex = 0` the entries appended to `Members` are exactly those of
the codes whose 1-based position `p` satisfies `skip < p ≤ top`, in that
order, and the function returns false; the entry at position `p` has the Id
`B<bootIndex>-<p>`. With `codeIndex > 0` the function returns true if and
only if `1 ≤ codeIndex ≤` number of codes; it then writes the entry at
position `codeIndex` and nothing else, and otherwise writes nothing. -/
theorem fillPostCodeEntry_selection (h : PostCodeHelpers) (systemName : String)
    (message : RegistryMessage) (res : PostCodeResponse) (postcode : List PostCode)
    (bootIndex codeIndex skip top : Nat)
    (hmsg : h.getMessage "OpenBMC.0.2.BIOSPOSTCode" = some message)
    (hfill : ∀ a b c : String, h.fillMessageArgs [a, b, c] message.message ≠ "") :
    (codeIndex = 0 →
        fillPostCodeEntry h systemName res postcode bootIndex codeIndex skip top =
          (false,
            { res with
                members :=
                  res.members ++
                    selectedEntries h systemName message bootIndex (firstTimeOf postcode)
                      skip top postcode 1 })) ∧
      (∀ (p : Nat) (code : PostCode),
        (entryAt h systemName message bootIndex (firstTimeOf postcode) p code).Id =
          "B" ++ toString bootIndex ++ "-" ++ toString p) ∧
      (0 < codeIndex →
        ((fillPostCodeEntry h systemName res postcode bootIndex codeIndex skip top).1 = true ↔
            1 ≤ codeIndex ∧ codeIndex ≤ postcode.length) ∧
          (∀ code, postcode.get? (codeIndex - 1) = some code →
            (fillPostCodeEntry h systemName res postcode bootIndex codeIndex skip top).2 =
              { res with
                  entry := some
                    (entryAt h systemName message bootIndex (firstTimeOf postcode) codeIndex
                      code) }) ∧
          (postcode.length < codeIndex →
            (fillPostCodeEntry h systemName res postcode bootIndex codeIndex skip top).2 =
              res)) := by
  refine ⟨fun h0 => ?_, fun p code => rfl, fun hpos => ?_⟩
  · subst h0
    exact fillPostCodeEntry_collect h systemName message res postcode bootIndex skip top hmsg
      hfill
  · have hsingle := fillPostCodeEntry_single h systemName message res postcode bootIndex
      codeIndex skip top hmsg hfill hpos
    cases hget : postcode.get? (codeIndex - 1) with
    | none =>
      rw [hget] at hsingle
      have hres : fillPostCodeEntry h systemName res postcode bootIndex codeIndex skip top =
          (false, res) := hsingle
      have hlen : postcode.length ≤ codeIndex - 1 := List.get?_eq_none.mp hget
      refine ⟨?_, fun code hc => (by cases hc), fun _ => (by rw [hres])⟩
      rw [hres]
      constructor
      · intro hf; cases hf
      · intro hle; omega
    | some code =>
      rw [hget] at hsingle
      have hsingle : fillPostCodeEntry h systemName res postcode bootIndex codeIndex skip top =
          (true,
            { res with
                entry := some
                  (entryAt h systemName message bootIndex (firstTimeOf postcode) codeIndex
                    code) }) := hsingle
      have hlen : codeIndex - 1 < postcode.length := by
        by_contra hnot
        have := List.get?_eq_none.mpr (Nat.le_of_not_lt hnot)
        rw [this] at hget; cases hget
      refine ⟨?_, fun code2 hc => ?_, fun hlt => ?_⟩
      · rw [hsingle]
        exact ⟨fun _ => by omega, fun _ => rfl⟩
      · cases hc
        rw [hsingle]
      · omega

/-- Witness of C21: three codes of boot 2, read as a page (`skip = 1`,
`top = 3`) and as the single entry 2. -/
theorem fillPostCodeEntry_selection_witness :
    fillPostCodeEntry examplePostCodeHelpers "system" ⟨[], [], none⟩
        [(1000000, 1, []), (1500000, 2, []), (2500000, 3, [])] 2 0 1 3 =
        (false,
          { messages := [],
            members :=
              [] ++
                selectedEntries examplePostCodeHelpers "system"
                  ⟨"Boot Count: %1; Time Stamp Offset: %2 seconds; POST Code: %3", "OK"⟩ 2
                  (firstTimeOf [(1000000, 1, []), (1500000, 2, []), (2500000, 3, [])]) 1 3
                  [(1000000, 1, []), (1500000, 2, []), (2500000, 3, [])] 1,
            entry := none }) ∧
      (selectedEntries examplePostCodeHelpers "system"
          ⟨"Boot Count: %1; Time Stamp Offset: %2 seconds; POST Code: %3", "OK"⟩ 2 1000000 1 3
          [(1000000, 1, []), (1500000, 2, []), (2500000, 3, [])] 1).map
        (fun e => e.Id) = ["B2-2", "B2-3"] ∧
      (selectedEntries examplePostCodeHelpers "system"
          ⟨"Boot Count: %1; Time Stamp Offset: %2 seconds; POST Code: %3", "OK"⟩ 2 1000000 1 3
          [(1000000, 1, []), (1500000, 2, []), (2500000, 3, [])] 1).map
        (fun e => e.Message) =
          ["Boot Count: 2; Time Stamp Offset: 0.5000 seconds; POST Code: 0x02",
            "Boot Count: 2; Time Stamp Offset: 1.5000 seconds; POST Code: 0x03"] ∧
      (fillPostCodeEntry examplePostCodeHelpers "system" ⟨[], [], none⟩
        [(1000000, 1, []), (1500000, 2, []), (2500000, 3, [])] 2 2 0 0).1 = true :=
  ⟨(fillPostCodeEntry_selection examplePostCodeHelpers "system"
      ⟨"Boot Count: %1; Time Stamp Offset: %2 seconds; POST Code: %3", "OK"⟩ ⟨[], [], none⟩
      [(1000000, 1, []), (1500000, 2, []), (2500000, 3, [])] 2 0 1 3 rfl
      examplePostCodeHelpers_fill).1 rfl,
    by decide,
    by decide,
    ((fillPostCodeEntry_selection examplePostCodeHelpers "system"
      ⟨"Boot Count: %1; Time Stamp Offset: %2 seconds; POST Code: %3", "OK"⟩ ⟨[], [], none⟩
      [(1000000, 1, []), (1500000, 2, []), (2500000, 3, [])] 2 2 0 0 rfl
      examplePostCodeHelpers_fill).2.2 (by decide)).1.mpr
      ⟨by decide, by decide⟩⟩

end redfish

/-! ## The single-session guard of virtual media -/

namespace crow
namespace obmc_vm1

theorem run_session_handler (events : List Event) (st : State)
    (h : st.session.isSome = st.handler.isSome) :
    ∃ st2, run events st = some st2 ∧ st2.session.isSome = st2.handler.isSome := by
  induction events generalizing st with
  | nil => exact ⟨st, rfl, h⟩
  | cons event rest ih =>
    cases event with
    | opened conn spawned =>
      simp only [run]
      apply ih
      unfold onopen
      split_ifs <;> first | exact h | rfl
    | closed conn =>
      simp only [run]
      unfold onclose
      split_ifs with hc
      · exact ih st h
      · have hs : st.session = some conn := by
          by_contra hne
          exact hc (fun heq => hne heq.symm)
        cases hh : st.handler with
        | none => rw [hs, hh] at h; cases h
        | some hd =>
          simp only [Option.some_bind]
          exact ih _ rfl

/-- C14: the single-session guard of virtual media. While a session is active,
an open event from any connection closes that connection ("Session already
connected") and leaves `session` and `handler` unchanged; a close event from a
connection that is not the active session leaves the state unchanged; and
after any sequence of open and close events from start-up the handlers have
run without touching a null `handler`, and a handler exists exactly when a
session does, so there is at most one session/handler pair. -/
theorem single_session_guard :
    (∀ (conn s : Nat) (spawned : Bool) (st : State), st.session = some s →
        onopen conn spawned st =
          { st with closed := st.closed ++ [(conn, "Session already connected")] }) ∧
      (∀ (conn : Nat) (st : State), st.session ≠ some conn → onclose conn st = some st) ∧
      (∀ events : List Event, ∃ st, run events initial = some st ∧
        st.session.isSome = st.handler.isSome) := by
  refine ⟨?_, ?_, fun events => run_session_handler events initial rfl⟩
  · intro conn s spawned st hs
    simp [onopen, hs]
  · intro conn st hs
    have : some conn ≠ st.session := fun h => hs h.symm
    simp [onclose, this]

/-- Witness of C14: connection 1 holds the session; connection 2 opens and is
turned away, then closes. -/
theorem single_session_guard_witness :
    onopen 2 true ⟨some 1, some ⟨"8", true⟩, []⟩ =
        ⟨some 1, some ⟨"8", true⟩, [(2, "Session already connected")]⟩ ∧
      onclose 2 ⟨some 1, some ⟨"8", true⟩, [(2, "Session already connected")]⟩ =
        some ⟨some 1, some ⟨"8", true⟩, [(2, "Session already connected")]⟩ :=
  ⟨single_session_guard.1 2 1 true ⟨some 1, some ⟨"8", true⟩, []⟩ rfl,
    single_session_guard.2.1 2 ⟨some 1, some ⟨"8", true⟩, [(2, "Session already connected")]⟩
      (by decide)⟩

end obmc_vm1
end crow
